import Mathlib

/-!
Shallow embedding of the period engine of lttng-analyses
(`lttnganalyses/core/period.py`, `lttnganalyses/cli/period_parsing.py`,
`lttnganalyses/core/analysis.py`, `lttnganalyses/core/sched.py`,
`lttnganalyses/cli/irq.py`).

Python machine values are modelled as follows: `int` is `Int`, `float` is
`Rat` (the expressions the period language compares are decimal literals and
trace field values, for which exact rational arithmetic coincides with the
comparisons the code performs), `str` is `String`, and `None` is an explicit
value.  Fallible Python code (dictionary dispatch, `assert`, dynamic-type
errors, call-arity errors) is embedded with `Except`.
-/

namespace Lttng

/-- Kind of Python runtime error surfaced by the embedded code. -/
inductive PyErr where
  /-- a dictionary lookup failed (Python `KeyError`) -/
  | keyError : PyErr
  /-- a failed `assert` statement (Python `AssertionError`) -/
  | assertionError : PyErr
  /-- an unsupported operation between types (Python `TypeError`) -/
  | typeError : PyErr
  /-- a missing attribute (Python `AttributeError`) -/
  | attributeError : PyErr
  /-- an invalid value conversion (Python `ValueError`) -/
  | valueError : PyErr
deriving DecidableEq

/-- Python value as seen by the matcher: `int`, `float`, `str` or `None`. -/
inductive PyVal where
  | int (z : Int) : PyVal
  | float (q : Rat) : PyVal
  | str (s : String) : PyVal
  | none : PyVal
deriving DecidableEq

/-- Python runtime type tag, the result of `type(...)`. -/
inductive PyType where
  | intT | floatT | strT | noneT
deriving DecidableEq

/-- Runtime type of a value (`type(v)`). -/
def PyVal.typeOf : PyVal → PyType
  | .int _ => .intT
  | .float _ => .floatT
  | .str _ => .strT
  | .none => .noneT

/-- Python `int(x)` on a float: truncation toward zero. -/
def truncTowardZero (q : Rat) : Int :=
  if 0 ≤ q then ⌊q⌋ else ⌈q⌉

/-- Numeric view of a Python value (`int` and `float` are comparable). -/
def PyVal.asNum : PyVal → Option Rat
  | .int z => some (z : Rat)
  | .float q => some q
  | _ => Option.none

/-- Python code-point lexicographic order on strings (`a < b` for `str`). -/
def pyStrLtAux : List Char → List Char → Bool
  | [], [] => false
  | [], _ :: _ => true
  | _ :: _, [] => false
  | a :: as, b :: bs => if a = b then pyStrLtAux as bs else decide (a.val < b.val)

/-- Python `a < b` for strings. -/
def pyStrLt (a b : String) : Bool :=
  pyStrLtAux a.data b.data

/-- Python `a == b` across the value kinds the matcher can meet: numeric
values compare numerically, strings compare as strings, `None == None` is
true, every mixed pair is `False` (never an error). -/
def pyEq (a b : PyVal) : Bool :=
  match a.asNum, b.asNum with
  | some x, some y => x = y
  | _, _ =>
    match a, b with
    | .str x, .str y => x = y
    | .none, .none => true
    | _, _ => false

/-- The five comparison callbacks registered in `_Matcher._expr_matchers`
(`!=` is not one of them: the parser builds it as `LogicalNot` of `Eq`). -/
inductive CompOp where
  | eq | lt | le | gt | ge
deriving DecidableEq

/-- Python `compfn(lh, rh)` for the matcher's five lambdas: `==` is total;
`<`, `<=`, `>`, `>=` are defined between two numbers or between two strings
and raise `TypeError` on every other pair (in particular when `None` is an
operand). -/
def pyCompare (op : CompOp) (a b : PyVal) : Except PyErr Bool :=
  match op with
  | .eq => .ok (pyEq a b)
  | .lt =>
    match a.asNum, b.asNum with
    | some x, some y => .ok (decide (x < y))
    | _, _ =>
      match a, b with
      | .str x, .str y => .ok (pyStrLt x y)
      | _, _ => .error .typeError
  | .le =>
    match a.asNum, b.asNum with
    | some x, some y => .ok (decide (x ≤ y))
    | _, _ =>
      match a, b with
      | .str x, .str y => .ok (pyStrLt x y || decide (x = y))
      | _, _ => .error .typeError
  | .gt =>
    match a.asNum, b.asNum with
    | some x, some y => .ok (decide (y < x))
    | _, _ =>
      match a, b with
      | .str x, .str y => .ok (pyStrLt y x)
      | _, _ => .error .typeError
  | .ge =>
    match a.asNum, b.asNum with
    | some x, some y => .ok (decide (y ≤ x))
    | _, _ =>
      match a, b with
      | .str x, .str y => .ok (pyStrLt y x || decide (x = y))
      | _, _ => .error .typeError

/-- The `DynScope` enumeration of `core/period.py` (seven values, `AUTO`
plus the six explicit trace scopes). -/
inductive DynScope where
  | auto | tph | spc | seh | sec | ec | ep
deriving DecidableEq

/-- One of the six CTF scopes of the trace stream format
(`bt.common.CTFScope`). -/
inductive CtfScope where
  | tracePacketHeader | streamPacketContext | streamEventHeader
  | streamEventContext | eventContext | eventFields
deriving DecidableEq

/-- The `_DYN_SCOPE_TO_BT_CTF_SCOPE` dictionary (six entries; `AUTO` is not
a key). -/
def dynScopeToBtCtfScope : DynScope → Option CtfScope
  | .tph => some .tracePacketHeader
  | .spc => some .streamPacketContext
  | .seh => some .streamEventHeader
  | .sec => some .streamEventContext
  | .ec => some .eventContext
  | .ep => some .eventFields
  | .auto => Option.none

/-- Expression AST of `core/period.py`: the two logical nodes, the five
comparison nodes, and the four leaves. -/
inductive Expr where
  | logicalNot (e : Expr) : Expr
  | logicalAnd (lh rh : Expr) : Expr
  | eqExpr (lh rh : Expr) : Expr
  | ltExpr (lh rh : Expr) : Expr
  | ltEqExpr (lh rh : Expr) : Expr
  | gtExpr (lh rh : Expr) : Expr
  | gtEqExpr (lh rh : Expr) : Expr
  | number (value : Rat) : Expr
  | string (value : String) : Expr
  | eventField (is_begin : Bool) (dyn_scope : DynScope) (name : String) : Expr
  | eventName (is_begin : Bool) : Expr
deriving DecidableEq

/-- A decoded trace event: a name plus, per CTF scope, named field values.
Modelled from the spec: the babeltrace event object is an external
collaborator (`Event { timestamp, name, cpu_id, fields }`, field access
keyed by name plus an optional scope tag). -/
structure Event where
  name : String
  fields : List (CtfScope × String × PyVal)
deriving DecidableEq

/-- Value of field `nm` of `ev` in scope `sc` (`event.field_with_scope`),
`None` when absent.  Modelled from the spec: explicit scope returns the
value from that scope exclusively; missing field gives the undefined
value. -/
def Event.fieldWithScope (ev : Event) (nm : String) (sc : CtfScope) : PyVal :=
  match ev.fields.find? (fun p => p.1 = sc ∧ p.2.1 = nm) with
  | some p => p.2.2
  | Option.none => .none

/-- Modelled from the spec: babeltrace AUTO lookup searches the scopes in
the fixed order payload, event context, stream event context, stream event
header, packet context, packet header and returns the first match (this
implements both `name in event` and `event[name]` in
`_Matcher._get_event_field_from_expr`). -/
def Event.autoLookup (ev : Event) (nm : String) : PyVal :=
  match [CtfScope.eventFields, CtfScope.eventContext,
         CtfScope.streamEventContext, CtfScope.streamEventHeader,
         CtfScope.streamPacketContext,
         CtfScope.tracePacketHeader].findSome?
      (fun sc =>
        match ev.fieldWithScope nm sc with
        | .none => Option.none
        | v => some v) with
  | some v => v
  | Option.none => .none

/-- The `MatchContext` carrier: a reference to one current event. -/
structure MatchContext where
  cur_event : Event
deriving DecidableEq

/-- The illegal-expression message raised by `ExpressionValidator`. -/
def illegalBeginRefMsg : String :=
  "Illegal reference to begin context in begin expression"

/-- The `ExpressionValidator._validate_field` check: under a begin-side
validation, an `EventFieldExpression` with `is_begin` set is illegal.
Non-field operands (including `EventNameExpression`) are not checked. -/
def validateField (isBegin : Bool) : Expr → Except String Unit
  | .eventField b _ _ =>
    if isBegin ∧ b then .error illegalBeginRefMsg else .ok ()
  | _ => .ok ()

/-- The `ExpressionValidator._validate` walk: recurse through `LogicalNot`
and `LogicalAnd`, check both operands of each comparison node with
`_validate_field`, and ignore every other node (leaves are not in the
callback dictionary). -/
def validateExpr (isBegin : Bool) : Expr → Except String Unit
  | .logicalNot e => validateExpr isBegin e
  | .logicalAnd lh rh => do
    validateExpr isBegin lh
    validateExpr isBegin rh
  | .eqExpr lh rh | .ltExpr lh rh | .ltEqExpr lh rh
  | .gtExpr lh rh | .gtEqExpr lh rh => do
    validateField isBegin lh
    validateField isBegin rh
  | _ => .ok ()

/-- The comparison callback attached to each comparison node in
`_Matcher._expr_matchers`. -/
def Expr.compOp? : Expr → Option CompOp
  | .eqExpr _ _ => some .eq
  | .ltExpr _ _ => some .lt
  | .ltEqExpr _ _ => some .le
  | .gtExpr _ _ => some .gt
  | .gtEqExpr _ _ => some .ge
  | _ => Option.none

/-- Python attribute access `expr.value` on a leaf: `NumberExpression` and
`StringExpression` carry a value; on any other node the access raises
`AttributeError`. -/
def Expr.valueAttr : Expr → Except PyErr PyVal
  | .number q => .ok (.float q)
  | .string s => .ok (.str s)
  | _ => .error .attributeError

/-- The `_Matcher._get_context` step: `assert(not(is_begin and
self._begin_context is None))`, then the begin context for `is_begin`
references and the current context otherwise. -/
def getContext (cur : MatchContext) (begin? : Option MatchContext)
    (isBegin : Bool) : Except PyErr MatchContext :=
  if isBegin ∧ begin?.isNone then .error .assertionError
  else if isBegin then .ok (begin?.getD cur) else .ok cur

/-- The `_Matcher._get_event_field_from_expr` lookup: `AUTO` scope searches
every scope of the current event of the chosen context; an explicit scope
reads from the mapped CTF scope exclusively. -/
def getEventFieldFromExpr (cur : MatchContext) (begin? : Option MatchContext)
    (isBegin : Bool) (scope : DynScope) (nm : String) : Except PyErr PyVal := do
  let context ← getContext cur begin? isBegin
  match scope with
  | .auto => pure (context.cur_event.autoLookup nm)
  | s =>
    match dynScopeToBtCtfScope s with
    | some btScope => pure (context.cur_event.fieldWithScope nm btScope)
    | Option.none => .error .keyError

/-- The `_Matcher._event_name_matches` step: the event name of the chosen
context is compared (with `==`, whatever the node's operator) against the
right-hand side's `value` attribute. -/
def eventNameMatches (cur : MatchContext) (begin? : Option MatchContext)
    (lhIsBegin : Bool) (rh : Expr) : Except PyErr Bool := do
  let context ← getContext cur begin? lhIsBegin
  let rv ← rh.valueAttr
  pure (pyEq (.str context.cur_event.name) rv)

/-- The `_Matcher._comp_expr_matches` dispatch on one comparison node.  For
a literal right-hand side the literal is cast to `int` when the field value
is an `int` and the literal a `float`, the runtime types are compared, and
on success `compfn` receives the field value and the ORIGINAL literal
(`expr.rh_expr.value`).  For a field right-hand side both field values go
straight to `compfn`.  A right-hand side of any other shape makes the
Python function fall through and return `None`, which every caller treats
as a non-match.  A left-hand side that is neither an `EventNameExpression`
nor an `EventFieldExpression` hits `assert(False)`. -/
def compExprMatches (cur : MatchContext) (begin? : Option MatchContext)
    (op : CompOp) (lh rh : Expr) : Except PyErr Bool :=
  match lh with
  | .eventName b => eventNameMatches cur begin? b rh
  | .eventField b scope nm => do
    let lhFieldValue ← getEventFieldFromExpr cur begin? b scope nm
    match rh with
    | .number q =>
      let rhValue : PyVal :=
        if lhFieldValue.typeOf = .intT then .int (truncTowardZero q)
        else .float q
      if lhFieldValue.typeOf ≠ rhValue.typeOf then pure false
      else pyCompare op lhFieldValue (.float q)
    | .string s =>
      if lhFieldValue.typeOf ≠ PyType.strT then pure false
      else pyCompare op lhFieldValue (.str s)
    | .eventField b' scope' nm' => do
      let rhFieldValue ← getEventFieldFromExpr cur begin? b' scope' nm'
      pyCompare op lhFieldValue rhFieldValue
    | _ => pure false
  | _ => .error .assertionError

/-- The `_Matcher._expr_matches` dispatch: `and` short-circuits, `not`
inverts, comparison nodes go to `_comp_expr_matches`, and a node type
absent from the `_expr_matchers` dictionary (a bare leaf) raises
`KeyError`. -/
def exprMatchesAux (cur : MatchContext) (begin? : Option MatchContext) :
    Expr → Except PyErr Bool
  | .logicalAnd lh rh => do
    let a ← exprMatchesAux cur begin? lh
    if a then exprMatchesAux cur begin? rh else pure false
  | .logicalNot e => do
    let a ← exprMatchesAux cur begin? e
    pure (!a)
  | .eqExpr lh rh => compExprMatches cur begin? .eq lh rh
  | .ltExpr lh rh => compExprMatches cur begin? .lt lh rh
  | .ltEqExpr lh rh => compExprMatches cur begin? .le lh rh
  | .gtExpr lh rh => compExprMatches cur begin? .gt lh rh
  | .gtEqExpr lh rh => compExprMatches cur begin? .ge lh rh
  | _ => .error .keyError

/-- The module-level `expr_matches(expr, cur_context, begin_context=None)`
entry point. -/
def exprMatches (expr : Expr) (curContext : MatchContext)
    (beginContext : Option MatchContext := Option.none) : Except PyErr Bool :=
  exprMatchesAux curContext beginContext expr

/-- Smallest exponent `k` (up to 400) with `d ∣ 10 ^ k`, for printing a
float whose rational value has a finite decimal expansion. -/
def pow10Exp (d : Nat) : Option Nat :=
  (List.range 400).find? (fun k => 10 ^ k % d = 0)

/-- Python `str` of a float, modelled on exact rationals: the numbers the
period language builds are finite decimals, printed with at least one
integer digit and one fractional digit the way `str(3.0) = '3.0'` and
`str(3.9) = '3.9'` do (very large or tiny magnitudes, which Python prints
in scientific notation, and non-decimal rationals fall outside the values
the parser can produce; they get a plain numerator-dot-denominator
fallback). -/
def pyFloatStr (q : Rat) : String :=
  match pow10Exp q.den with
  | some k =>
    let scaled : Nat := (q.num * ((10 ^ k : Nat) / q.den : Nat)).natAbs
    let s := toString scaled
    let s := String.mk (List.replicate (k + 1 - s.length) '0') ++ s
    let ip := s.dropRight k
    let fp := if k = 0 then "0" else s.takeRight k
    (if q.num < 0 then "-" else "") ++ ip ++ "." ++ fp
  | Option.none => toString q.num ++ "/" ++ toString q.den

/-- The `__repr__` printers of `core/period.py`: every node is wrapped in
parentheses; `EventFieldExpression.__repr__` prints `$begin.` when
`is_begin` is set, then `$evt.` and the field name, and does not print the
dynamic scope; `EventNameExpression.__repr__` prints `$begin.` then
`$name`. -/
def formatExpr : Expr → String
  | .logicalNot e => "(!" ++ formatExpr e ++ ")"
  | .logicalAnd lh rh => "(" ++ formatExpr lh ++ " && " ++ formatExpr rh ++ ")"
  | .eqExpr lh rh => "(" ++ formatExpr lh ++ " == " ++ formatExpr rh ++ ")"
  | .ltExpr lh rh => "(" ++ formatExpr lh ++ " < " ++ formatExpr rh ++ ")"
  | .ltEqExpr lh rh => "(" ++ formatExpr lh ++ " <= " ++ formatExpr rh ++ ")"
  | .gtExpr lh rh => "(" ++ formatExpr lh ++ " > " ++ formatExpr rh ++ ")"
  | .gtEqExpr lh rh => "(" ++ formatExpr lh ++ " >= " ++ formatExpr rh ++ ")"
  | .number q => "(" ++ pyFloatStr q ++ ")"
  | .string s => "(\"" ++ s ++ "\")"
  | .eventField b _ nm =>
    "(" ++ (if b then "$begin." else "") ++ "$evt." ++ nm ++ ")"
  | .eventName b =>
    "(" ++ (if b then "$begin." else "") ++ "$name" ++ ")"

/-- The `PeriodDefinition` record of `core/period.py`. -/
structure PeriodDefinition where
  name : Option String
  begin_expr : Expr
  end_expr : Expr
deriving DecidableEq

/-- Whitespace characters pyparsing skips between tokens by default. -/
def isParseWs (c : Char) : Bool :=
  c = ' ' || c = '\t' || c = '\n'

/-- Skip inter-token whitespace. -/
def skipWs (l : List Char) : List Char :=
  l.dropWhile isParseWs

/-- Match a literal token (`pp.Literal`), skipping leading whitespace. -/
def pLit (lit : List Char) (l : List Char) : Option (List Char) :=
  let l := skipWs l
  if lit.isPrefixOf l then some (l.drop lit.length) else Option.none

/-- Match a `pp.Word(initChars, bodyChars)` token: one initial-class
character followed by as many body-class characters as possible. -/
def pWord (initP bodyP : Char → Bool) (l : List Char) :
    Option (String × List Char) :=
  match skipWs l with
  | [] => Option.none
  | c :: rest =>
    if initP c then
      some (String.mk (c :: rest.takeWhile bodyP), rest.dropWhile bodyP)
    else Option.none

/-- Digit predicate (`pp.nums`). -/
def isNumChar (c : Char) : Bool := c.isDigit

/-- Optional fraction part of the `_number` element (`'.'` plus optional
digits). -/
def pNumberFrac (l1 : List Char) : List Char × List Char :=
  match l1 with
  | '.' :: r => ('.' :: r.takeWhile isNumChar, r.dropWhile isNumChar)
  | _ => ([], l1)

/-- Optional exponent part of the `_number` element (a case-insensitive
`e` plus a signed digit word). -/
def pNumberExp (l2 : List Char) : List Char × List Char :=
  match l2 with
  | e :: r =>
    if e = 'e' || e = 'E' then
      match r with
      | s :: r2 =>
        if s = '+' || s = '-' || s.isDigit then
          (e :: s :: r2.takeWhile isNumChar, r2.dropWhile isNumChar)
        else ([], l2)
      | [] => ([], l2)
    else ([], l2)
  | [] => ([], l2)

/-- The `_number` element: `pp.Combine` of a signed digit word, an optional
fraction and an optional exponent, with no whitespace inside. -/
def pNumberTok (l : List Char) : Option (String × List Char) :=
  match skipWs l with
  | [] => Option.none
  | c :: rest =>
    if c = '+' || c = '-' || c.isDigit then
      let intDigits := rest.takeWhile isNumChar
      let fr := pNumberFrac (rest.dropWhile isNumChar)
      let ex := pNumberExp fr.2
      some (String.mk (c :: intDigits ++ fr.1 ++ ex.1), ex.2)
    else Option.none

/-- Scan the inside of a `pp.QuotedString('"', '\\')`: ends at the closing
quote, a backslash escapes the next character (and is removed from the
result), an unterminated string or an embedded newline fails. -/
def qstrScan : List Char → Option (List Char × List Char)
  | [] => Option.none
  | '\\' :: c :: r =>
    match qstrScan r with
    | some (s, rest) => some (c :: s, rest)
    | Option.none => Option.none
  | '\\' :: [] => Option.none
  | '"' :: r => some ([], r)
  | '\n' :: _ => Option.none
  | c :: r =>
    match qstrScan r with
    | some (s, rest) => some (c :: s, rest)
    | Option.none => Option.none

/-- The `_quoted_string` element. -/
def pQString (l : List Char) : Option (String × List Char) :=
  match skipWs l with
  | '"' :: r =>
    match qstrScan r with
    | some (s, rest) => some (String.mk s, rest)
    | Option.none => Option.none
  | _ => Option.none

/-- The `_identifier` element (`pp.Word(alphas + '_', alphanums + '_')`). -/
def pIdent (l : List Char) : Option (String × List Char) :=
  pWord (fun c => c.isAlpha || c = '_') (fun c => c.isAlphanum || c = '_') l

/-- The `_period_name` element (`pp.Word(alphanums + '_-')`). -/
def pPeriodName (l : List Char) : Option (String × List Char) :=
  pWord (fun c => c.isAlphanum || c = '_' || c = '-')
    (fun c => c.isAlphanum || c = '_' || c = '-') l

/-- The `_dyn_scope` alternatives, tried in the written order. -/
def pDynScope (l : List Char) : Option (DynScope × List Char) :=
  match pLit "$pkt_header.".data l with
  | some r => some (.tph, r)
  | Option.none =>
  match pLit "$pkt_ctx.".data l with
  | some r => some (.spc, r)
  | Option.none =>
  match pLit "$header.".data l with
  | some r => some (.seh, r)
  | Option.none =>
  match pLit "$stream_ctx.".data l with
  | some r => some (.sec, r)
  | Option.none =>
  match pLit "$ctx.".data l with
  | some r => some (.ec, r)
  | Option.none =>
  match pLit "$payload.".data l with
  | some r => some (.ep, r)
  | Option.none => Option.none

/-- Raw parse of one `<field>` reference, before conversion to an
expression node. -/
structure RawField where
  isBegin : Bool
  dynScope : Option DynScope
  id : String
deriving DecidableEq

/-- Tail of the `_event_field` element after the optional `$begin.`:
`$evt.`, optional dynamic scope, identifier. -/
def pRawFieldAfterBegin (isBegin : Bool) (l1 : List Char) :
    Option (RawField × List Char) :=
  match pLit "$evt.".data l1 with
  | Option.none => Option.none
  | some l2 =>
    match pDynScope l2 with
    | some (sc, l3) =>
      (match pIdent l3 with
       | some (idStr, l4) => some (⟨isBegin, some sc, idStr⟩, l4)
       | Option.none => Option.none)
    | Option.none =>
      (match pIdent l2 with
       | some (idStr, l4) => some (⟨isBegin, Option.none, idStr⟩, l4)
       | Option.none => Option.none)

/-- The `_event_field` element: optional `$begin.`, `$evt.`, optional
dynamic scope, identifier. -/
def pRawField (l : List Char) : Option (RawField × List Char) :=
  match pLit "$begin.".data l with
  | some lb => pRawFieldAfterBegin true lb
  | Option.none => pRawFieldAfterBegin false l

/-- Tail of the `_event_name` element after the optional `$begin.`:
`$evt.` then `$name`. -/
def pEventNameAfterBegin (isBegin : Bool) (l1 : List Char) :
    Option (Bool × List Char) :=
  match pLit "$evt.".data l1 with
  | Option.none => Option.none
  | some l2 =>
    match pLit "$name".data l2 with
    | some l3 => some (isBegin, l3)
    | Option.none => Option.none

/-- The `_event_name` element: optional `$begin.`, `$evt.`, `$name`. -/
def pEventNameTok (l : List Char) : Option (Bool × List Char) :=
  match pLit "$begin.".data l with
  | some lb => pEventNameAfterBegin true lb
  | Option.none => pEventNameAfterBegin false l

/-- The `_relop` alternatives in written order (`==`, `!=`, `<=`, `>=`,
`<`, `>`). -/
def pRelop (l : List Char) : Option (String × List Char) :=
  match pLit "==".data l with
  | some r => some ("==", r)
  | Option.none =>
  match pLit "!=".data l with
  | some r => some ("!=", r)
  | Option.none =>
  match pLit "<=".data l with
  | some r => some ("<=", r)
  | Option.none =>
  match pLit ">=".data l with
  | some r => some (">=", r)
  | Option.none =>
  match pLit "<".data l with
  | some r => some ("<", r)
  | Option.none =>
  match pLit ">".data l with
  | some r => some (">", r)
  | Option.none => Option.none

/-- The `_eqop` alternatives (`==`, `!=`). -/
def pEqop (l : List Char) : Option (String × List Char) :=
  match pLit "==".data l with
  | some r => some ("==", r)
  | Option.none =>
  match pLit "!=".data l with
  | some r => some ("!=", r)
  | Option.none => Option.none

/-- Raw parse of one conjunction atom, keeping the operator and literal
tokens as matched. -/
inductive RawAtom where
  | nameComp (isBegin : Bool) (op : String) (lit : String) : RawAtom
  | numberComp (field : RawField) (op : String) (num : String) : RawAtom
  | stringComp (field : RawField) (op : String) (lit : String) : RawAtom
  | fieldComp (lh : RawField) (op : String) (rh : RawField) : RawAtom
deriving DecidableEq

/-- The `_name_comp_expr` element: event name, equality operator, quoted
string. -/
def pNameCompAtom (l : List Char) : Option (RawAtom × List Char) :=
  match pEventNameTok l with
  | Option.none => Option.none
  | some (b, l1) =>
    match pEqop l1 with
    | Option.none => Option.none
    | some (op, l2) =>
      match pQString l2 with
      | Option.none => Option.none
      | some (s, l3) => some (.nameComp b op s, l3)

/-- The `_number_comp_expr` element: field, relational operator, number. -/
def pNumberCompAtom (l : List Char) : Option (RawAtom × List Char) :=
  match pRawField l with
  | Option.none => Option.none
  | some (f, l1) =>
    match pRelop l1 with
    | Option.none => Option.none
    | some (op, l2) =>
      match pNumberTok l2 with
      | Option.none => Option.none
      | some (n, l3) => some (.numberComp f op n, l3)

/-- The `_string_comp_expr` element: field, equality operator, quoted
string. -/
def pStringCompAtom (l : List Char) : Option (RawAtom × List Char) :=
  match pRawField l with
  | Option.none => Option.none
  | some (f, l1) =>
    match pEqop l1 with
    | Option.none => Option.none
    | some (op, l2) =>
      match pQString l2 with
      | Option.none => Option.none
      | some (s, l3) => some (.stringComp f op s, l3)

/-- The `_field_comp_expr` element: field, relational operator, field. -/
def pFieldCompAtom (l : List Char) : Option (RawAtom × List Char) :=
  match pRawField l with
  | Option.none => Option.none
  | some (lh, l1) =>
    match pRelop l1 with
    | Option.none => Option.none
    | some (op, l2) =>
      match pRawField l2 with
      | Option.none => Option.none
      | some (rh, l3) => some (.fieldComp lh op rh, l3)

/-- One atom of `_conj_exprs`: `pp.MatchFirst` of `_name_comp_expr`,
`_number_comp_expr`, `_string_comp_expr`, `_field_comp_expr`, each tried
from the same position. -/
def pAtom (l : List Char) : Option (RawAtom × List Char) :=
  match pNameCompAtom l with
  | some r => some r
  | Option.none =>
  match pNumberCompAtom l with
  | some r => some r
  | Option.none =>
  match pStringCompAtom l with
  | some r => some r
  | Option.none =>
  match pFieldCompAtom l with
  | some r => some r
  | Option.none => Option.none

/-- The `{'&&' atom}` tail of `pp.delimitedList`: keep taking a delimiter
plus an atom; when the delimiter matches but the atom does not, back off to
before the delimiter (fuel only bounds the iteration count; each iteration
consumes at least the two delimiter characters). -/
def pConjLoop : Nat → List RawAtom → List Char → List RawAtom × List Char
  | 0, acc, l => (acc, l)
  | fuel + 1, acc, l =>
    match pLit "&&".data l with
    | Option.none => (acc, l)
    | some l1 =>
      match pAtom l1 with
      | Option.none => (acc, l)
      | some (a, l2) => pConjLoop fuel (acc ++ [a]) l2

/-- The `_conj_exprs` element: one atom then the delimited tail.  The first
atom is kept apart: `delimitedList` always produces at least one result. -/
def pConj (l : List Char) : Option ((RawAtom × List RawAtom) × List Char) :=
  match pAtom l with
  | Option.none => Option.none
  | some (a, l1) =>
    let (rest, l2) := pConjLoop l1.length [] l1
    some ((a, rest), l2)

/-- Raw parse result of the whole `_period` element. -/
structure RawPeriod where
  name : Option String
  beginFirst : RawAtom
  beginRest : List RawAtom
  endAtoms : Option (RawAtom × List RawAtom)
deriving DecidableEq

/-- The `pp.Optional(':' + conj)` end clause: if it fails anywhere it is
skipped without consuming anything. -/
def pPeriodEnd (l3 : List Char) :
    Option (RawAtom × List RawAtom) × List Char :=
  match pLit ":".data l3 with
  | some la =>
    match pConj la with
    | some (eatoms, lb) => (some eatoms, lb)
    | Option.none => (Option.none, l3)
  | Option.none => (Option.none, l3)

/-- Tail of the `_period` element after the optional period name: `:`,
begin conjunction, optional end clause. -/
def pPeriodAfterName (nm : Option String) (l1 : List Char) :
    Option (RawPeriod × List Char) :=
  match pLit ":".data l1 with
  | Option.none => Option.none
  | some l2 =>
    match pConj l2 with
    | Option.none => Option.none
    | some (batoms, l3) =>
      some (⟨nm, batoms.1, batoms.2, (pPeriodEnd l3).1⟩, (pPeriodEnd l3).2)

/-- The `_period` element: optional period name, `:`, begin conjunction,
then the optional end clause. -/
def pPeriod (l : List Char) : Option (RawPeriod × List Char) :=
  match pPeriodName l with
  | some (n, r) => pPeriodAfterName (some n) r
  | Option.none => pPeriodAfterName Option.none l

/-- Numeric value of a digit list. -/
def digitsVal (l : List Char) : Nat :=
  l.foldl (fun a c => a * 10 + (c.toNat - '0'.toNat)) 0

/-- Python `float(s)` on the tokens the number element can match: optional
sign, integer digits, optional fraction, optional exponent; at least one
mantissa digit is required (`float('-')` raises `ValueError`). -/
def pyFloatOfStr (s : String) : Option Rat :=
  let l := s.data
  let (sign, l) :=
    match l with
    | '+' :: r => ((1 : Rat), r)
    | '-' :: r => ((-1 : Rat), r)
    | _ => ((1 : Rat), l)
  let ip := l.takeWhile isNumChar
  let l1 := l.dropWhile isNumChar
  let (fp, l2) :=
    match l1 with
    | '.' :: r => (r.takeWhile isNumChar, r.dropWhile isNumChar)
    | _ => ([], l1)
  if ip.length + fp.length = 0 then Option.none
  else
    let mantissa : Rat :=
      (digitsVal ip : Rat) + (digitsVal fp : Rat) / (10 ^ fp.length : Nat)
    match l2 with
    | [] => some (sign * mantissa)
    | e :: r =>
      if e = 'e' || e = 'E' then
        let (esign, r1) :=
          match r with
          | '+' :: r2 => ((1 : Int), r2)
          | '-' :: r2 => ((-1 : Int), r2)
          | _ => ((1 : Int), r)
        let ed := r1.takeWhile isNumChar
        if ed.length = 0 ∨ r1.dropWhile isNumChar ≠ [] then Option.none
        else some (sign * mantissa * (10 : Rat) ^ (esign * digitsVal ed))
      else Option.none

/-- The `_OP_TO_EXPR` dictionary of `period_parsing.py`: `!=` builds
`LogicalNot` around `Eq`; a key outside the six operators would raise
`KeyError`. -/
def mkOpExpr (op : String) (lh rh : Expr) : Except PyErr Expr :=
  if op = "==" then .ok (.eqExpr lh rh)
  else if op = "!=" then .ok (.logicalNot (.eqExpr lh rh))
  else if op = "<" then .ok (.ltExpr lh rh)
  else if op = "<=" then .ok (.ltEqExpr lh rh)
  else if op = ">" then .ok (.gtExpr lh rh)
  else if op = ">=" then .ok (.gtEqExpr lh rh)
  else .error .keyError

/-- The `_res_field_to_field_expression` conversion: absent dynamic scope
becomes `AUTO`. -/
def rawFieldToExpr (f : RawField) : Expr :=
  .eventField f.isBegin (f.dynScope.getD .auto) f.id

/-- Conversion of one raw atom by `_parse_results_to_expression`
(`float(...)` on number tokens may raise `ValueError`, which
`parse_period_arg` does not catch). -/
def rawAtomToExpr : RawAtom → Except PyErr Expr
  | .nameComp b op s => mkOpExpr op (.eventName b) (.string s)
  | .numberComp f op n =>
    match pyFloatOfStr n with
    | some q => mkOpExpr op (rawFieldToExpr f) (.number q)
    | Option.none => .error .valueError
  | .stringComp f op s => mkOpExpr op (rawFieldToExpr f) (.string s)
  | .fieldComp lh op rh =>
    mkOpExpr op (rawFieldToExpr lh) (rawFieldToExpr rh)

/-- The `_parse_results_to_expression` loop: the first atom seeds the
accumulator and each further atom is joined on the right of a
`LogicalAnd`. -/
def rawAtomsToExpr (first : RawAtom) (rest : List RawAtom) :
    Except PyErr Expr := do
  let mut cur ← rawAtomToExpr first
  for a in rest do
    cur := .logicalAnd cur (← rawAtomToExpr a)
  return cur

/-- What `parse_period_arg` can raise: `MalformedExpression` when
`parseString` fails, `IllegalExpression` from the validators, and an
uncaught Python error escaping the conversion step. -/
inductive PeriodParseError where
  | malformedExpression : PeriodParseError
  | illegalExpression (msg : String) : PeriodParseError
  | uncaught (e : PyErr) : PeriodParseError
deriving DecidableEq

/-- The `parse_period_arg` entry point of `cli/period_parsing.py`: parse
the whole string (`parseAll=True`, so only trailing whitespace may
remain), convert the begin conjunction (and the end conjunction when the
grammar matched one, otherwise `end_expr = begin_expr`), then validate the
begin side with `is_begin = True` and the end side with `is_begin =
False`. -/
def parsePeriodArg (arg : String) : Except PeriodParseError PeriodDefinition :=
  match pPeriod arg.data with
  | Option.none => .error .malformedExpression
  | some (raw, rest) =>
    if skipWs rest ≠ [] then .error .malformedExpression
    else
      match raw.endAtoms with
      | Option.none =>
        match rawAtomsToExpr raw.beginFirst raw.beginRest with
        | .error e => .error (.uncaught e)
        | .ok beginExpr =>
          match validateExpr true beginExpr with
          | .error msg => .error (.illegalExpression msg)
          | .ok () =>
            match validateExpr false beginExpr with
            | .error msg => .error (.illegalExpression msg)
            | .ok () => .ok ⟨raw.name, beginExpr, beginExpr⟩
      | some (endFirst, endRest) =>
        match rawAtomsToExpr raw.beginFirst raw.beginRest with
        | .error e => .error (.uncaught e)
        | .ok beginExpr =>
          match rawAtomsToExpr endFirst endRest with
          | .error e => .error (.uncaught e)
          | .ok endExpr =>
            match validateExpr true beginExpr with
            | .error msg => .error (.illegalExpression msg)
            | .ok () =>
              match validateExpr false endExpr with
              | .error msg => .error (.illegalExpression msg)
              | .ok () => .ok ⟨raw.name, beginExpr, endExpr⟩

/-- Python truthiness of an optional integer (`None` and `0` are falsy). -/
def pyTruthyInt : Option Int → Bool
  | Option.none => false
  | some z => z ≠ 0

/-- Python truthiness of an optional list (`None` and `[]` are falsy). -/
def pyTruthyList {α : Type} : Option (List α) → Bool
  | Option.none => false
  | some l => !l.isEmpty

/-- The `PeriodData` record of `core/analysis.py`
(`__init__(self, start_ts, begin_context=None)`). -/
structure PeriodData where
  period_start_ts : Option Int
  begin_context : Option MatchContext
deriving DecidableEq

/-- The `AnalysisConfig` record of `core/analysis.py` (fields start as
`None` / `[]`). -/
structure AnalysisConfig where
  refresh_period : Option Int := Option.none
  begin_ts : Option Int := Option.none
  end_ts : Option Int := Option.none
  min_duration : Option Int := Option.none
  max_duration : Option Int := Option.none
  proc_list : Option (List String) := Option.none
  tid_list : Option (List Int) := Option.none
  cpu_list : Option (List Int) := Option.none
  period_defs : List PeriodDefinition := []

/-- Mutable per-analysis state of the `Analysis` dispatcher that
`_check_refresh` touches. -/
structure AnalysisState where
  periods : List PeriodData
  last_event_ts : Option Int
deriving DecidableEq

/-- The `Analysis._close_period` effect on the dispatcher's own state: the
tick notification and the state-layer callback deregistration go to
external collaborators; the period is removed from `self._periods`. -/
def closePeriod (st : AnalysisState) (period : PeriodData) : AnalysisState :=
  { st with periods := st.periods.erase period }

/-- A call of `Analysis._open_period`.  The method is declared
`def _open_period(self, period_def, timestamp, begin_context)` — three
required parameters — so the caller that omits `begin_context` raises
`TypeError` at the call; a complete call still raises `TypeError` inside
the body, which runs `PeriodData(period_def, timestamp, begin_context)`
against `PeriodData.__init__(self, start_ts, begin_context=None)` (at most
two arguments).  `beginContextArg = none` encodes an omitted third
argument. -/
def openPeriod (_st : AnalysisState) (_periodDef : Option PeriodDefinition)
    (_timestamp : Int) (beginContextArg : Option (Option MatchContext)) :
    Except PyErr AnalysisState :=
  match beginContextArg with
  | Option.none => .error .typeError
  | some _ => .error .typeError

/-- The `Analysis._check_refresh` step: a falsy `period_start_ts` only
prints a debug line; otherwise, when the event timestamp has reached
`period_start_ts + refresh_period`, the period is closed and
`self._open_period(None, ev.timestamp)` is called (two arguments).  A
`None` refresh period would make the `+` raise `TypeError`, but
`process_event` only calls this with a configured refresh period. -/
def checkRefresh (conf : AnalysisConfig) (st : AnalysisState)
    (period : PeriodData) (evTimestamp : Int) : Except PyErr AnalysisState :=
  if !pyTruthyInt period.period_start_ts then .ok st
  else
    match conf.refresh_period with
    | Option.none => .error .typeError
    | some refreshPeriod =>
      if evTimestamp ≥ period.period_start_ts.getD 0 + refreshPeriod then
        let st1 := closePeriod st period
        openPeriod st1 Option.none evTimestamp Option.none
      else .ok st

/-- A process tracked by the external state layer.  Modelled from the
spec: the state layer tracks processes with their pid, tid, command name,
priority and last-wakeup timestamp. -/
structure Process where
  pid : Option Int
  tid : Int
  comm : String
  prio : Int
  last_wakeup : Option Int
deriving DecidableEq

/-- The `SchedEvent` record of `core/sched.py`: `latency = switch_ts −
wakeup_ts` and `prio` is the wakee's priority. -/
structure SchedEvent where
  wakeup_ts : Int
  switch_ts : Int
  wakee_proc : Process
  waker_proc : Option Process
  prio : Int
  target_cpu : Int
  latency : Int
deriving DecidableEq

/-- The `SchedEvent` constructor. -/
def SchedEvent.new (wakeupTs switchTs : Int) (wakee : Process)
    (waker : Option Process) (targetCpu : Int) : SchedEvent :=
  ⟨wakeupTs, switchTs, wakee, waker, wakee.prio, targetCpu,
   switchTs - wakeupTs⟩

/-- The `ProcessSchedStats` per-tid accumulator of `core/sched.py`.  The
`prio_list` field and `update_prio` live on the `stats.Process` base class;
modelled from the spec: `prio_history: Vec<(ts, prio)>`. -/
structure ProcessSchedStats where
  pid : Option Int
  tid : Int
  comm : String
  min_latency : Option Int
  max_latency : Option Int
  total_latency : Int
  sched_list : List SchedEvent
  prio_list : List (Int × Int)
deriving DecidableEq

/-- Modelled from the spec: `stats.Process.new_from_process` builds a fresh
accumulator carrying the process identity. -/
def ProcessSchedStats.newFromProcess (proc : Process) : ProcessSchedStats :=
  ⟨proc.pid, proc.tid, proc.comm, Option.none, Option.none, 0, [], []⟩

/-- Modelled from the spec: `update_prio(ts, prio)` appends to the prio
history. -/
def ProcessSchedStats.updatePrio (s : ProcessSchedStats) (ts prio : Int) :
    ProcessSchedStats :=
  { s with prio_list := s.prio_list ++ [(ts, prio)] }

/-- The `ProcessSchedStats.update_stats` method. -/
def ProcessSchedStats.updateStats (s : ProcessSchedStats) (ev : SchedEvent) :
    ProcessSchedStats :=
  { s with
    min_latency :=
      match s.min_latency with
      | Option.none => some ev.latency
      | some m => if ev.latency < m then some ev.latency else some m
    max_latency :=
      match s.max_latency with
      | Option.none => some ev.latency
      | some m => if ev.latency > m then some ev.latency else some m
    total_latency := s.total_latency + ev.latency
    sched_list := s.sched_list ++ [ev] }

/-- The per-period scheduling state installed by `SchedAnalysis.reset`:
`sched_list`, `min_latency`, `max_latency`, `total_latency` and the `tids`
dictionary. -/
structure SchedPeriodState where
  sched_list : List SchedEvent
  min_latency : Option Int
  max_latency : Option Int
  total_latency : Int
  tids : List (Int × ProcessSchedStats)
deriving DecidableEq

/-- The `Analysis._filter_process` check: a missing process passes; a
truthy `proc_list` must contain the comm and a truthy `tid_list` must
contain the tid. -/
def filterProcess (conf : AnalysisConfig) (proc : Option Process) : Bool :=
  match proc with
  | Option.none => true
  | some p =>
    if pyTruthyList conf.proc_list ∧ p.comm ∉ conf.proc_list.getD [] then
      false
    else if pyTruthyList conf.tid_list ∧ p.tid ∉ conf.tid_list.getD [] then
      false
    else true

/-- The `Analysis._filter_cpu` check. -/
def filterCpu (conf : AnalysisConfig) (cpu : Int) : Bool :=
  !(pyTruthyList conf.cpu_list ∧ cpu ∉ conf.cpu_list.getD [] : Bool)

/-- Replace the accumulator stored under `tid` (`period.tids[tid]` is known
to exist at the one call site). -/
def updateTidEntry (tids : List (Int × ProcessSchedStats)) (tid : Int)
    (f : ProcessSchedStats → ProcessSchedStats) :
    List (Int × ProcessSchedStats) :=
  tids.map (fun p => if p.1 = tid then (p.1, f p.2) else p)

/-- The `SchedAnalysis._update_stats` method (period-level aggregate). -/
def schedUpdateStats (period : SchedPeriodState) (ev : SchedEvent) :
    SchedPeriodState :=
  { period with
    min_latency :=
      match period.min_latency with
      | Option.none => some ev.latency
      | some m => if ev.latency < m then some ev.latency else some m
    max_latency :=
      match period.max_latency with
      | Option.none => some ev.latency
      | some m => if ev.latency > m then some ev.latency else some m
    total_latency := period.total_latency + ev.latency
    sched_list := period.sched_list ++ [ev] }

/-- The `SchedAnalysis._process_sched_switch` notification handler: read
the wakee's last wakeup, run the process and CPU filters, drop the event
when no wakeup is recorded or the latency falls outside the configured
duration bounds, then record waker and wakee accumulators and update the
period statistics. -/
def processSchedSwitch (conf : AnalysisConfig) (period : SchedPeriodState)
    (cpuId : Int) (switchTs : Int) (wakeeProc : Process)
    (wakerProc : Option Process) (nextTid : Int) : SchedPeriodState :=
  let wakeupTs := wakeeProc.last_wakeup
  if !filterProcess conf (some wakeeProc) then period
  else if !filterCpu conf cpuId then period
  else
    match wakeupTs with
    | Option.none => period
    | some w =>
      let latency := switchTs - w
      if (match conf.min_duration with
          | some m => decide (latency < m)
          | Option.none => false) then period
      else if (match conf.max_duration with
          | some m => decide (latency > m)
          | Option.none => false) then period
      else
        let period :=
          match wakerProc with
          | some wk =>
            if (period.tids.lookup wk.tid).isNone then
              { period with
                tids := period.tids ++
                  [(wk.tid, (ProcessSchedStats.newFromProcess wk).updatePrio
                      switchTs wk.prio)] }
            else period
          | Option.none => period
        let period :=
          if (period.tids.lookup nextTid).isNone then
            { period with
              tids := period.tids ++
                [(nextTid, (ProcessSchedStats.newFromProcess
                    wakeeProc).updatePrio switchTs wakeeProc.prio)] }
          else period
        let schedEvent := SchedEvent.new w switchTs wakeeProc wakerProc cpuId
        let period :=
          { period with
            tids := updateTidEntry period.tids nextTid
              (ProcessSchedStats.updateStats · schedEvent) }
        schedUpdateStats period schedEvent

/-- One completed interrupt of an `irq_list` (the fields
`_fill_freq_result_table` reads). -/
structure IrqEntry where
  begin_ts : Int
  end_ts : Int
deriving DecidableEq

/-- The per-id IRQ aggregator read by `_fill_freq_result_table`.  Modelled
from the spec where needed: the aggregator class lives in `core/irq.py`
(not under `src/`); the spec gives it `count`, `min_duration`,
`max_duration` and the list of completed interrupts, with `count ==
len(samples)` and `min ≤ sample ≤ max` as maintained invariants. -/
structure IrqStatsGroup where
  name : String
  count : Nat
  min_duration : Int
  max_duration : Int
  irq_list : List IrqEntry
deriving DecidableEq

/-- One row of the frequency-distribution result table (bounds in
microseconds as computed, count of samples in the bin). -/
structure FreqRow where
  duration_lower : Rat
  duration_upper : Rat
  count : Nat
deriving DecidableEq

/-- Python `counts[index] += 1` on a list: non-negative indexes address
from the front, negative indexes from the back, anything out of range
raises `IndexError`. -/
def pyListIncr (counts : List Nat) (i : Int) : Option (List Nat) :=
  if 0 ≤ i ∧ i < (counts.length : Int) then
    some (counts.set i.toNat (counts.getD i.toNat 0 + 1))
  else if -(counts.length : Int) ≤ i ∧ i < 0 then
    some (counts.set (counts.length + i).toNat
      (counts.getD (counts.length + i).toNat 0 + 1))
  else Option.none

/-- The bucket index `min(int((duration_us - min_us) / step), resolution -
1)` computed for one interrupt. -/
def bucketIndex (minUs step : Rat) (resolution : Nat) (irq : IrqEntry) : Int :=
  let durationUs : Rat := ((irq.end_ts - irq.begin_ts : Int) : Rat) / 1000
  min (truncTowardZero ((durationUs - minUs) / step)) ((resolution : Int) - 1)

/-- The `IrqAnalysisCommand._fill_freq_result_table` computation:
durations move to microseconds, `step = (max − min) / resolution`, a zero
step leaves the table empty, otherwise `resolution` zero-initialised
counters are bumped at each interrupt's bucket index and one row per
counter is appended.  `resolution = 0` raises `ZeroDivisionError` in the
step computation; the returned value is `none` on any raised error. -/
def fillFreqResultTable (resolution : Nat) (stats : IrqStatsGroup) :
    Option (List FreqRow) :=
  if resolution = 0 then Option.none
  else
    let minUs : Rat := (stats.min_duration : Rat) / 1000
    let maxUs : Rat := (stats.max_duration : Rat) / 1000
    let step : Rat := (maxUs - minUs) / (resolution : Rat)
    if step = 0 then some []
    else
      match stats.irq_list.foldlM
          (fun counts irq =>
            pyListIncr counts (bucketIndex minUs step resolution irq))
          (List.replicate resolution (0 : Nat)) with
      | Option.none => Option.none
      | some counts =>
        some ((List.range resolution).map
          (fun index =>
            { duration_lower := ((index : Nat) : Rat) * step + minUs,
              duration_upper := (((index : Nat) : Rat) + 1) * step + minUs,
              count := counts.getD index 0 }))

/-! ## Spec-side predicates and shared concrete inputs -/

/-- Claim-side predicate: some `EventField` or `EventName` leaf anywhere in
the expression has `is_begin = true` (the condition the specification says
the validator rejects). -/
def hasBeginLeaf : Expr → Bool
  | .logicalNot e => hasBeginLeaf e
  | .logicalAnd lh rh
  | .eqExpr lh rh | .ltExpr lh rh | .ltEqExpr lh rh
  | .gtExpr lh rh | .gtEqExpr lh rh => hasBeginLeaf lh || hasBeginLeaf rh
  | .eventField b _ _ => b
  | .eventName b => b
  | _ => false

/-- An expression that is exactly an `EventFieldExpression` with `is_begin`
set (the only shape `_validate_comp` actually checks). -/
def isBeginField : Expr → Bool
  | .eventField b _ _ => b
  | _ => false

/-- The condition the validator in the source actually enforces: some
comparison node reachable through `LogicalAnd` / `LogicalNot` chains has an
`EventField` operand with `is_begin = true`. -/
def hasBeginFieldOperand : Expr → Bool
  | .logicalNot e => hasBeginFieldOperand e
  | .logicalAnd lh rh => hasBeginFieldOperand lh || hasBeginFieldOperand rh
  | .eqExpr lh rh | .ltExpr lh rh | .ltEqExpr lh rh
  | .gtExpr lh rh | .gtEqExpr lh rh => isBeginField lh || isBeginField rh
  | _ => false

/-- A concrete event used by the concrete counterexamples and witnesses:
payload fields `x = 3` (int), `a = "abc"` and `b = "abd"` (strings). -/
def evC : Event :=
  ⟨"sched_switch",
   [(CtfScope.eventFields, "x", PyVal.int 3),
    (CtfScope.eventFields, "a", PyVal.str "abc"),
    (CtfScope.eventFields, "b", PyVal.str "abd")]⟩

/-! ## C1: what the validator rejects -/

/-- Key fact for C1: `_validate_field` only fires on `EventField`
operands. -/
theorem validateField_eq (isBegin : Bool) (e : Expr) :
    validateField isBegin e =
      (if isBegin ∧ isBeginField e then .error illegalBeginRefMsg
       else .ok ()) := by
  cases e <;> simp [validateField, isBeginField]

/-- C1 (corrected): the begin-side validator fails exactly on an
`EventField` comparison operand with `is_begin = true`, reached through
`LogicalAnd` / `LogicalNot` chains; `EventName` operands are never
checked; the end-side validator (flag `False`) never fails. -/
theorem C1_validator_scope (e : Expr) :
    validateExpr true e =
      (if hasBeginFieldOperand e then .error illegalBeginRefMsg
       else .ok ()) ∧
    validateExpr false e = .ok () := by
  induction e with
  | logicalNot e ih =>
    simp only [validateExpr, hasBeginFieldOperand]
    exact ih
  | logicalAnd lh rh ihl ihr =>
    simp only [validateExpr, hasBeginFieldOperand, bind, Except.bind,
      ihl.1, ihl.2, ihr.1, ihr.2]
    constructor
    · by_cases h : hasBeginFieldOperand lh = true <;> simp [h]
    · trivial
  | eqExpr lh rh | ltExpr lh rh | ltEqExpr lh rh | gtExpr lh rh
  | gtEqExpr lh rh =>
    simp only [validateExpr, hasBeginFieldOperand, bind, Except.bind,
      validateField_eq, true_and, false_and, if_false]
    constructor
    · by_cases h : isBeginField lh = true <;> simp [h]
    · simp
  | number v => exact ⟨rfl, rfl⟩
  | string v => exact ⟨rfl, rfl⟩
  | eventField b sc nm => exact ⟨rfl, rfl⟩
  | eventName b => exact ⟨rfl, rfl⟩

/-- C1 counterexample: a begin-side expression whose `EventName` leaf has
`is_begin = true` is accepted by the validator, although the claim says it
must be rejected. -/
theorem C1_beginName_accepted :
    hasBeginLeaf (Expr.eqExpr (Expr.eventName true)
      (Expr.string "sched_switch")) = true ∧
    validateExpr true (Expr.eqExpr (Expr.eventName true)
      (Expr.string "sched_switch")) = .ok () :=
  ⟨rfl, rfl⟩

/-! ## C6: an `is_begin` reference with no begin context -/

/-- C6 (corrected): evaluating any comparison atom whose left-hand side
refers to the begin context (`EventField` or `EventName` with `is_begin`)
against a match context with no begin context raises `AssertionError`
(`assert(not(is_begin and self._begin_context is None))` in
`_Matcher._get_context`) instead of yielding false. -/
theorem C6_missing_begin_context_asserts (cur : MatchContext) (op : CompOp)
    (scope : DynScope) (nm : String) (rhs : Expr) :
    compExprMatches cur Option.none op (.eventField true scope nm) rhs =
      .error .assertionError ∧
    compExprMatches cur Option.none op (.eventName true) rhs =
      .error .assertionError := by
  constructor
  · simp [compExprMatches, getEventFieldFromExpr, getContext, bind,
      Except.bind]
  · simp [compExprMatches, eventNameMatches, getContext, bind, Except.bind]

/-- C6 counterexample: a concrete end-side atom referring to `$begin.`
evaluated with an absent begin context aborts with `AssertionError`. -/
theorem C6_concrete_assertion :
    exprMatches (.eqExpr (.eventField true .auto "x") (.number 3)) ⟨evC⟩
      Option.none = .error .assertionError := by
  simp [exprMatches, exprMatchesAux, compExprMatches, getEventFieldFromExpr,
    getContext, bind, Except.bind]

/-! ## C3: float literals against integer fields -/

/-- Claim-side formulation of an exact numeric comparison between two
rationals, following the five matcher callbacks. -/
def compRatBool (op : CompOp) (x y : Rat) : Bool :=
  match op with
  | .eq => decide (x = y)
  | .lt => decide (x < y)
  | .le => decide (x ≤ y)
  | .gt => decide (y < x)
  | .ge => decide (y ≤ x)

/-- `compfn` between an `int` and a `float` is Python's exact numeric
comparison. -/
theorem pyCompare_int_float (op : CompOp) (n : Int) (q : Rat) :
    pyCompare op (.int n) (.float q) = .ok (compRatBool op (n : Rat) q) := by
  cases op <;> simp [pyCompare, PyVal.asNum, compRatBool, pyEq]

/-- C3 (corrected): when the field resolves to an integer and the literal
is a float, the truncated literal is used only for the runtime-type gate;
the comparison itself receives the field value and the ORIGINAL literal
(`compfn(lh_field_value, expr.rh_expr.value)`), so the result is the exact
numeric comparison against the untruncated literal. -/
theorem C3_literal_not_truncated_in_compare (cur : MatchContext)
    (beginCtx : Option MatchContext) (bL : Bool) (op : CompOp)
    (scope : DynScope) (nm : String) (n : Int) (q : Rat)
    (hlookup : getEventFieldFromExpr cur beginCtx bL scope nm =
      .ok (.int n)) :
    compExprMatches cur beginCtx op (.eventField bL scope nm) (.number q) =
      .ok (compRatBool op (n : Rat) q) := by
  simp [compExprMatches, hlookup, bind, Except.bind, pure, Except.pure, PyVal.typeOf,
    pyCompare_int_float]

/-- Witness for C3: the concrete field `x = 3` compared with `==` against
the literal `3.9` goes through the integer-cast type gate and is compared
numerically. -/
theorem C3_literal_not_truncated_in_compare_witness :
    getEventFieldFromExpr ⟨evC⟩ Option.none false .auto "x" =
      .ok (.int 3) ∧
    compExprMatches ⟨evC⟩ Option.none .eq (.eventField false .auto "x")
      (.number (39/10)) = .ok (compRatBool .eq (3 : Rat) (39/10)) :=
  ⟨by rfl, C3_literal_not_truncated_in_compare ⟨evC⟩ Option.none false .eq
    .auto "x" 3 (39/10) (by rfl)⟩

/-- C3 counterexample: field value `3` compared with `==` against the
literal `3.9` evaluates to `False` in the code (the claim says the literal
is truncated to `3` and the comparison yields `True`), although the
truncation of `3.9` is indeed `3`. -/
theorem C3_eq_three_point_nine_false :
    truncTowardZero (39/10) = 3 ∧
    exprMatches (.eqExpr (.eventField false .auto "x") (.number (39/10)))
      ⟨evC⟩ = .ok false := by
  constructor
  · rw [truncTowardZero, if_pos (by norm_num)]
    norm_num
  · simp [exprMatches, exprMatchesAux, compExprMatches,
      getEventFieldFromExpr, getContext, bind, Except.bind, pure, Except.pure, Event.autoLookup,
      Event.fieldWithScope, evC, List.findSome?, List.find?, PyVal.typeOf,
      pyCompare, PyVal.asNum, pyEq]
    norm_num

/-! ## C4: ordering comparisons on strings -/

/-- C4 (corrected): the four ordering operators applied to two string
operands yield Python's lexicographic string comparison (both in
field-to-field form and against a string literal), not `False`. -/
theorem C4_string_ordering_is_lexicographic (cur : MatchContext)
    (beginCtx : Option MatchContext) (bL bR : Bool) (scL scR : DynScope)
    (nmL nmR : String) (lit : String) (x y : String)
    (hx : getEventFieldFromExpr cur beginCtx bL scL nmL = .ok (.str x))
    (hy : getEventFieldFromExpr cur beginCtx bR scR nmR = .ok (.str y)) :
    (compExprMatches cur beginCtx .lt (.eventField bL scL nmL)
      (.eventField bR scR nmR) = .ok (pyStrLt x y)) ∧
    (compExprMatches cur beginCtx .le (.eventField bL scL nmL)
      (.eventField bR scR nmR) = .ok (pyStrLt x y || decide (x = y))) ∧
    (compExprMatches cur beginCtx .gt (.eventField bL scL nmL)
      (.eventField bR scR nmR) = .ok (pyStrLt y x)) ∧
    (compExprMatches cur beginCtx .ge (.eventField bL scL nmL)
      (.eventField bR scR nmR) = .ok (pyStrLt y x || decide (x = y))) ∧
    (compExprMatches cur beginCtx .lt (.eventField bL scL nmL)
      (.string lit) = .ok (pyStrLt x lit)) ∧
    (compExprMatches cur beginCtx .le (.eventField bL scL nmL)
      (.string lit) = .ok (pyStrLt x lit || decide (x = lit))) ∧
    (compExprMatches cur beginCtx .gt (.eventField bL scL nmL)
      (.string lit) = .ok (pyStrLt lit x)) ∧
    (compExprMatches cur beginCtx .ge (.eventField bL scL nmL)
      (.string lit) = .ok (pyStrLt lit x || decide (x = lit))) := by
  refine ⟨?_, ?_, ?_, ?_, ?_, ?_, ?_, ?_⟩ <;>
    simp [compExprMatches, hx, hy, bind, Except.bind, pure, Except.pure, PyVal.typeOf,
      pyCompare, PyVal.asNum]

/-- Witness for C4: the concrete string fields `a = "abc"` and
`b = "abd"`. -/
theorem C4_string_ordering_is_lexicographic_witness :
    getEventFieldFromExpr ⟨evC⟩ Option.none false .auto "a" =
      .ok (.str "abc") ∧
    compExprMatches ⟨evC⟩ Option.none .lt (.eventField false .auto "a")
      (.eventField false .auto "b") = .ok (pyStrLt "abc" "abd") :=
  ⟨by rfl,
   (C4_string_ordering_is_lexicographic ⟨evC⟩ Option.none false false
     .auto .auto "a" "b" "zzz" "abc" "abd" (by rfl) (by rfl)).1⟩

/-- C4 counterexample: `<` between the string fields `a = "abc"` and
`b = "abd"` evaluates to `True` (the claim says every ordering comparison
on strings yields `False`). -/
theorem C4_string_lt_true :
    exprMatches (.ltExpr (.eventField false .auto "a")
      (.eventField false .auto "b")) ⟨evC⟩ = .ok true := by
  rfl

/-! ## C2: missing fields -/

/-- C2 (corrected): a missing field makes a literal comparison `False` for
every operator without an error, but in field-to-field form only equality
is safe: equality against exactly one missing side is `False`, equality of
two missing sides is `True` (`None == None`), and the four ordering
operators raise `TypeError` whenever either side is missing; the `!=`
form, built as `LogicalNot` around `Eq`, therefore yields `True` on a
missing field. -/
theorem C2_missing_field_semantics (cur : MatchContext)
    (beginCtx : Option MatchContext) (bL bR : Bool) (scL scR : DynScope)
    (nmL nmR : String) (op : CompOp) (q : Rat) (s : String) (v : PyVal)
    (hL : getEventFieldFromExpr cur beginCtx bL scL nmL = .ok .none)
    (hR : getEventFieldFromExpr cur beginCtx bR scR nmR = .ok v) :
    (compExprMatches cur beginCtx op (.eventField bL scL nmL)
      (.number q) = .ok false) ∧
    (compExprMatches cur beginCtx op (.eventField bL scL nmL)
      (.string s) = .ok false) ∧
    (exprMatchesAux cur beginCtx (.logicalNot (.eqExpr
      (.eventField bL scL nmL) (.number q))) = .ok true) ∧
    (v ≠ .none → compExprMatches cur beginCtx .eq (.eventField bL scL nmL)
      (.eventField bR scR nmR) = .ok false) ∧
    (v = .none → compExprMatches cur beginCtx .eq (.eventField bL scL nmL)
      (.eventField bR scR nmR) = .ok true) ∧
    (op ≠ .eq → compExprMatches cur beginCtx op (.eventField bL scL nmL)
      (.eventField bR scR nmR) = .error .typeError) ∧
    (op ≠ .eq → compExprMatches cur beginCtx op (.eventField bR scR nmR)
      (.eventField bL scL nmL) = .error .typeError) := by
  refine ⟨?_, ?_, ?_, ?_, ?_, ?_, ?_⟩
  · simp [compExprMatches, hL, bind, Except.bind, pure, Except.pure, PyVal.typeOf]
  · simp [compExprMatches, hL, bind, Except.bind, pure, Except.pure, PyVal.typeOf]
  · simp [exprMatchesAux, compExprMatches, hL, bind, Except.bind, pure, Except.pure,
      PyVal.typeOf]
  · intro hv
    simp [compExprMatches, hL, hR, bind, Except.bind, pure, Except.pure, pyCompare, pyEq,
      PyVal.asNum]
    cases v <;> simp_all [PyVal.asNum]
  · intro hv
    subst hv
    simp [compExprMatches, hL, hR, bind, Except.bind, pure, Except.pure, pyCompare, pyEq,
      PyVal.asNum]
  · intro hop
    cases op <;> simp_all [compExprMatches, hL, hR, bind, Except.bind,
      pure, Except.pure, pyCompare, PyVal.asNum]
  · intro hop
    cases op <;> simp_all [compExprMatches, hL, hR, bind, Except.bind,
      pure, Except.pure, pyCompare, PyVal.asNum]

/-- Witness for C2: the concrete missing field `zzz` against the present
integer field `x` of `evC`. -/
theorem C2_missing_field_semantics_witness :
    getEventFieldFromExpr ⟨evC⟩ Option.none false .auto "zzz" =
      .ok .none ∧
    compExprMatches ⟨evC⟩ Option.none .eq (.eventField false .auto "zzz")
      (.number 5) = .ok false ∧
    (PyVal.int 3 ≠ PyVal.none →
      compExprMatches ⟨evC⟩ Option.none .eq (.eventField false .auto "zzz")
        (.eventField false .auto "x") = .ok false) := by
  have h := C2_missing_field_semantics ⟨evC⟩ Option.none false false
    .auto .auto "zzz" "x" .eq 5 "lit" (.int 3) (by rfl) (by rfl)
  exact ⟨by rfl, h.1, h.2.2.2.1⟩

/-- C2 counterexample: a field-to-field `<` whose left field is absent
raises `TypeError` (`None < 3` in Python), although the claim says a
missing field yields `False` and never raises, for all six operators and
both forms. -/
theorem C2_missing_field_lt_raises :
    exprMatches (.ltExpr (.eventField false .auto "zzz")
      (.eventField false .auto "x")) ⟨evC⟩ = .error .typeError := by
  rfl

/-! ## C10: rejected sched_switch notifications leave the period state
unchanged -/

/-- C10 (confirmed): a `sched_switch_per_tid` notification that fails the
process/tid filter, fails the CPU filter, has no recorded wakeup, or whose
latency falls strictly outside the configured duration bounds returns the
period's scheduling state unchanged — every early `return` in
`_process_sched_switch` happens before the first mutation. -/
theorem C10_rejected_switch_leaves_state (conf : AnalysisConfig)
    (period : SchedPeriodState) (cpuId switchTs : Int) (wakeeProc : Process)
    (wakerProc : Option Process) (nextTid : Int)
    (h : filterProcess conf (some wakeeProc) = false ∨
         filterCpu conf cpuId = false ∨
         wakeeProc.last_wakeup = Option.none ∨
         (∃ w m, wakeeProc.last_wakeup = some w ∧
           conf.min_duration = some m ∧ switchTs - w < m) ∨
         (∃ w m, wakeeProc.last_wakeup = some w ∧
           conf.max_duration = some m ∧ switchTs - w > m)) :
    processSchedSwitch conf period cpuId switchTs wakeeProc wakerProc
      nextTid = period := by
  unfold processSchedSwitch
  rcases h with h | h | h | ⟨w, m, hw, hm, hlt⟩ | ⟨w, m, hw, hm, hgt⟩
  · simp [h]
  · by_cases hp : filterProcess conf (some wakeeProc) = true <;>
      simp [hp, h] at *
  · by_cases hp : filterProcess conf (some wakeeProc) = true <;>
    by_cases hc : filterCpu conf cpuId = true <;>
      simp_all [h]
  · by_cases hp : filterProcess conf (some wakeeProc) = true <;>
    by_cases hc : filterCpu conf cpuId = true <;>
      simp_all [hw, hm, hlt]
  · by_cases hp : filterProcess conf (some wakeeProc) = true <;>
    by_cases hc : filterCpu conf cpuId = true <;>
      simp_all [hw, hm, hgt]

/-- Witness for C10: a wakee with no recorded `last_wakeup` leaves an empty
period state untouched. -/
theorem C10_rejected_switch_leaves_state_witness :
    processSchedSwitch {} ⟨[], Option.none, Option.none, 0, []⟩ 0 100
      ⟨some 1, 42, "bash", 20, Option.none⟩ Option.none 42 =
      ⟨[], Option.none, Option.none, 0, []⟩ :=
  C10_rejected_switch_leaves_state {} ⟨[], Option.none, Option.none, 0, []⟩
    0 100 ⟨some 1, 42, "bash", 20, Option.none⟩ Option.none 42
    (Or.inr (Or.inr (Or.inl rfl)))

/-! ## C5: the refresh path cannot reopen a period -/

/-- C5 (code bug): when the refresh deadline is reached,
`_check_refresh` closes the period and then calls
`self._open_period(None, ev.timestamp)`; `_open_period` declares three
required parameters (and its own body passes three positional arguments to
the two-parameter `PeriodData` constructor), so the call raises
`TypeError` instead of opening a replacement instance. -/
theorem C5_refresh_reopen_raises (conf : AnalysisConfig)
    (st : AnalysisState) (period : PeriodData) (evTimestamp : Int)
    (refreshPeriod : Int)
    (hconf : conf.refresh_period = some refreshPeriod)
    (hstart : pyTruthyInt period.period_start_ts = true)
    (hdeadline : evTimestamp ≥
      period.period_start_ts.getD 0 + refreshPeriod) :
    checkRefresh conf st period evTimestamp = .error .typeError := by
  simp [checkRefresh, hconf, hstart, hdeadline, openPeriod]

/-- Witness for C5: refresh period 1000, a period opened at 500, an event
at 1500 (`1500 − 500 ≥ 1000`): the refresh path raises `TypeError`. -/
theorem C5_refresh_reopen_raises_witness :
    checkRefresh { refresh_period := some 1000 }
      ⟨[⟨some 500, Option.none⟩], some 500⟩ ⟨some 500, Option.none⟩ 1500 =
      .error .typeError :=
  C5_refresh_reopen_raises { refresh_period := some 1000 }
    ⟨[⟨some 500, Option.none⟩], some 500⟩ ⟨some 500, Option.none⟩ 1500 1000
    rfl (by rfl) (by norm_num)

/-! ## C8: the frequency-distribution histogram -/

/-- Claim-side bucket formula: `min(⌊(x − min)/step⌋, N − 1)` with
`step = (max − min)/N`, all in microseconds. -/
def specBucketIndex (g : IrqStatsGroup) (resolution : Nat)
    (e : IrqEntry) : Int :=
  let minUs : Rat := (g.min_duration : Rat) / 1000
  let maxUs : Rat := (g.max_duration : Rat) / 1000
  let step : Rat := (maxUs - minUs) / (resolution : Rat)
  let durationUs : Rat := ((e.end_ts - e.begin_ts : Int) : Rat) / 1000
  min ⌊(durationUs - minUs) / step⌋ ((resolution : Int) - 1)

/-- Truncation toward zero agrees with the floor on non-negative
arguments. -/
theorem truncTowardZero_eq_floor (q : Rat) (h : 0 ≤ q) :
    truncTowardZero q = ⌊q⌋ := by
  simp [truncTowardZero, h]

/-- In-range increments never raise `IndexError`. -/
theorem pyListIncr_of_valid (cs : List Nat) (i : Int) (h0 : 0 ≤ i)
    (hl : i < (cs.length : Int)) :
    pyListIncr cs i =
      some (cs.set i.toNat (cs.getD i.toNat 0 + 1)) := by
  simp [pyListIncr, h0, hl]

/-- Incrementing one in-range cell adds one to the sum. -/
theorem sum_set_getD_add_one (cs : List Nat) (n : Nat) (h : n < cs.length) :
    (cs.set n (cs.getD n 0 + 1)).sum = cs.sum + 1 := by
  induction cs generalizing n with
  | nil => simp at h
  | cons c cs ih =>
    cases n with
    | zero => simp [List.getD_cons_zero]; omega
    | succ n =>
      have hn : n < cs.length := by simpa using h
      have hset : (c :: cs).set (n + 1) ((c :: cs).getD (n + 1) 0 + 1) =
          c :: cs.set n (cs.getD n 0 + 1) := by
        simp [List.getD_cons_succ]
      rw [hset, List.sum_cons, ih n hn, List.sum_cons]
      omega

/-- Reading back after an increment: the bumped cell gains one, every other
cell is unchanged. -/
theorem getD_set_incr (cs : List Nat) (n i : Nat) (hi : i < cs.length) :
    (cs.set n (cs.getD n 0 + 1)).getD i 0 =
      cs.getD i 0 + (if n = i then 1 else 0) := by
  by_cases h : n = i
  · subst h
    rw [List.getD_eq_getElem?_getD, List.getElem?_set_self hi,
      List.getD_eq_getElem?_getD]
    rw [List.getElem?_eq_getElem hi]
    simp
  · rw [List.getD_eq_getElem?_getD, List.getElem?_set_ne h,
      ← List.getD_eq_getElem?_getD]
    simp [h]

/-- Behaviour of the counting loop of `_fill_freq_result_table`: with every
bucket index in range the loop succeeds, the list length is preserved, the
total count grows by the number of samples, and each cell ends up with the
number of samples mapped to it. -/
theorem foldlM_pyListIncr (f : IrqEntry → Int) (ds : List IrqEntry)
    (counts : List Nat)
    (hvalid : ∀ e ∈ ds, 0 ≤ f e ∧ f e < (counts.length : Int)) :
    ∃ cs, List.foldlM (fun cs e => pyListIncr cs (f e)) counts ds =
        some cs ∧
      cs.length = counts.length ∧
      cs.sum = counts.sum + ds.length ∧
      (∀ i : Nat, i < counts.length →
        cs.getD i 0 = counts.getD i 0 +
          (ds.filter (fun e => f e = (i : Int))).length) := by
  induction ds generalizing counts with
  | nil => exact ⟨counts, rfl, rfl, by simp, by simp⟩
  | cons e ds ih =>
    have he := hvalid e (by simp)
    have htoNat : ((f e).toNat : Int) = f e := Int.toNat_of_nonneg he.1
    have htoNatLt : (f e).toNat < counts.length := by omega
    have hstep := pyListIncr_of_valid counts (f e) he.1 he.2
    obtain ⟨cs, hfold, hlen, hsum, hidx⟩ :=
      ih (counts.set (f e).toNat (counts.getD (f e).toNat 0 + 1))
        (by
          intro a ha
          have := hvalid a (by simp [ha])
          simpa [List.length_set] using this)
    refine ⟨cs, ?_, by simp [hlen, List.length_set], ?_, ?_⟩
    · rw [List.foldlM_cons, hstep]
      simpa using hfold
    · rw [hsum, sum_set_getD_add_one counts (f e).toNat htoNatLt]
      simp [List.length_set]
      omega
    · intro i hi
      rw [hidx i (by simpa [List.length_set] using hi)]
      rw [getD_set_incr counts _ i hi]
      rw [List.filter_cons]
      by_cases hei : f e = (i : Int)
      · have hnat : (f e).toNat = i := by omega
        simp [hei, hnat]
        omega
      · have hnat : (f e).toNat ≠ i := by omega
        simp [hei, hnat]

/-- Reading every cell once reads the whole list. -/
theorem sum_map_getD_range (cs : List Nat) :
    ((List.range cs.length).map (fun i => cs.getD i 0)).sum = cs.sum := by
  induction cs with
  | nil => simp
  | cons c cs ih =>
    rw [show (c :: cs).length = cs.length + 1 from rfl,
      List.range_succ_eq_map]
    simp only [List.map_cons, List.map_map, Function.comp_def,
      List.getD_cons_zero, List.getD_cons_succ, List.sum_cons]
    rw [ih]

/-- C8 (confirmed): for a group with `count > 0` (using the spec-level
aggregator invariants `count = len(irq_list)` and `min ≤ duration ≤ max`,
the aggregator itself living outside the sources) and resolution `N > 0`:
equal min and max durations give an empty frequency table; otherwise the
table has `N` rows, each sample is counted at bucket index
`min(⌊(x − min)/step⌋, N − 1)` with `step = (max − min)/N` in
microseconds, and the bucket counts sum to the group's count. -/
theorem C8_histogram (resolution : Nat) (g : IrqStatsGroup)
    (hN : 0 < resolution)
    (hpos : 0 < g.count)
    (hcount : g.count = g.irq_list.length)
    (hbounds : ∀ e ∈ g.irq_list,
      g.min_duration ≤ e.end_ts - e.begin_ts ∧
      e.end_ts - e.begin_ts ≤ g.max_duration) :
    (g.min_duration = g.max_duration →
      fillFreqResultTable resolution g = some []) ∧
    (g.min_duration ≠ g.max_duration →
      ∃ rows, fillFreqResultTable resolution g = some rows ∧
        rows.length = resolution ∧
        (rows.map FreqRow.count).sum = g.count ∧
        (∀ i : Nat, i < resolution →
          (rows.getD i ⟨0, 0, 0⟩).count =
            (g.irq_list.filter
              (fun e => specBucketIndex g resolution e = (i : Int))).length)) := by
  have hNQ : (0 : Rat) < (resolution : Rat) := by exact_mod_cast hN
  constructor
  · intro heq
    rw [fillFreqResultTable, if_neg (by omega : ¬resolution = 0), heq]
    simp
  · intro hne
    -- the group is non-empty, so min < max
    have hlt : g.min_duration < g.max_duration := by
      rcases hl : g.irq_list with _ | ⟨e, tl⟩
      · rw [hl] at hcount; simp at hcount; omega
      · have := hbounds e (by rw [hl]; simp)
        omega
    set minUs : Rat := (g.min_duration : Rat) / 1000 with hminUs
    set maxUs : Rat := (g.max_duration : Rat) / 1000 with hmaxUs
    set step : Rat := (maxUs - minUs) / (resolution : Rat) with hstepDef
    have hUslt : minUs < maxUs := by
      rw [hminUs, hmaxUs]
      have : (g.min_duration : Rat) < (g.max_duration : Rat) := by
        exact_mod_cast hlt
      exact div_lt_div_of_pos_right this (by norm_num)
    have hstepPos : 0 < step := div_pos (sub_pos.mpr hUslt) hNQ
    -- every bucket index is in range
    have hvalid : ∀ e ∈ g.irq_list,
        0 ≤ bucketIndex minUs step resolution e ∧
        bucketIndex minUs step resolution e <
          ((List.replicate resolution (0 : Nat)).length : Int) := by
      intro e he
      have hdur : minUs ≤ ((e.end_ts - e.begin_ts : Int) : Rat) / 1000 := by
        rw [hminUs]
        have : (g.min_duration : Rat) ≤ ((e.end_ts - e.begin_ts : Int) : Rat) := by
          exact_mod_cast (hbounds e he).1
        exact (div_le_div_iff_of_pos_right (by norm_num)).mpr this
      constructor
      · rw [bucketIndex]
        apply le_min
        · rw [truncTowardZero_eq_floor _
            (div_nonneg (sub_nonneg.mpr hdur) hstepPos.le)]
          exact Int.floor_nonneg.mpr
            (div_nonneg (sub_nonneg.mpr hdur) hstepPos.le)
        · omega
      · rw [bucketIndex]
        simp only [List.length_replicate]
        calc min (truncTowardZero _) ((resolution : Int) - 1)
            ≤ (resolution : Int) - 1 := min_le_right _ _
          _ < (resolution : Int) := by omega
    obtain ⟨cs, hfold, hlen, hsum, hidx⟩ :=
      foldlM_pyListIncr (bucketIndex minUs step resolution) g.irq_list
        (List.replicate resolution 0) hvalid
    have hlenN : cs.length = resolution := by simpa using hlen
    refine ⟨(List.range resolution).map
      (fun index => (⟨((index : Nat) : Rat) * step + minUs,
        (((index : Nat) : Rat) + 1) * step + minUs,
        cs.getD index 0⟩ : FreqRow)), ?_, ?_, ?_, ?_⟩
    · simp only [fillFreqResultTable]
      rw [if_neg (by omega : ¬resolution = 0)]
      rw [← hminUs, ← hmaxUs, ← hstepDef]
      rw [if_neg hstepPos.ne', hfold]
    · simp
    · have : ((List.range resolution).map
          (fun i => cs.getD i 0)).sum = cs.sum := by
        rw [← hlenN]
        exact sum_map_getD_range cs
      simp only [List.map_map, Function.comp_def]
      rw [this, hsum]
      simp [hcount]
    · intro i hi
      have hrow : ((List.range resolution).map
          (fun index => (⟨((index : Nat) : Rat) * step + minUs,
            (((index : Nat) : Rat) + 1) * step + minUs,
            cs.getD index 0⟩ : FreqRow))).getD i ⟨0, 0, 0⟩ =
          ⟨((i : Nat) : Rat) * step + minUs,
            (((i : Nat) : Rat) + 1) * step + minUs, cs.getD i 0⟩ := by
        rw [List.getD_eq_getElem _ _
          (by simpa using hi)]
        rw [List.getElem_map]
        rw [List.getElem_range]
      rw [hrow]
      have := hidx i (by simpa using hi)
      have hz : (List.replicate resolution (0 : Nat)).getD i 0 = 0 := by
        rw [List.getD_eq_getElem _ _ (by simpa using hi)]
        simp
      rw [hz, Nat.zero_add] at this
      rw [this]
      show (g.irq_list.filter
          (fun e => decide (bucketIndex minUs step resolution e =
            (i : Int)))).length =
        (g.irq_list.filter
          (fun e => decide (specBucketIndex g resolution e =
            (i : Int)))).length
      congr 1
      apply List.filter_congr
      intro e he
      have hdur : minUs ≤ ((e.end_ts - e.begin_ts : Int) : Rat) / 1000 := by
        rw [hminUs]
        have : (g.min_duration : Rat) ≤ ((e.end_ts - e.begin_ts : Int) : Rat) := by
          exact_mod_cast (hbounds e he).1
        exact (div_le_div_iff_of_pos_right (by norm_num)).mpr this
      have hbe : bucketIndex minUs step resolution e =
          specBucketIndex g resolution e := by
        simp only [bucketIndex, specBucketIndex]
        rw [← hminUs, ← hmaxUs, ← hstepDef]
        rw [truncTowardZero_eq_floor _
          (div_nonneg (sub_nonneg.mpr hdur) hstepPos.le)]
      rw [hbe]

/-- Witness for C8: the spec's concrete histogram scenario — durations
{10, 10, 20, 30, 30, 30} microseconds with resolution 3 give the bucket
counts [2, 1, 3], which sum to 6. -/
theorem C8_histogram_witness :
    ∃ rows, fillFreqResultTable 3
        ⟨"eth0", 6, 10000, 30000,
         [⟨0, 10000⟩, ⟨0, 10000⟩, ⟨0, 20000⟩, ⟨0, 30000⟩, ⟨0, 30000⟩,
          ⟨0, 30000⟩]⟩ = some rows ∧
      rows.length = 3 ∧ (rows.map FreqRow.count).sum = 6 := by
  obtain ⟨rows, h1, h2, h3, h4⟩ :=
    (C8_histogram 3
      ⟨"eth0", 6, 10000, 30000,
       [⟨0, 10000⟩, ⟨0, 10000⟩, ⟨0, 20000⟩, ⟨0, 30000⟩, ⟨0, 30000⟩,
        ⟨0, 30000⟩]⟩
      (by norm_num) (by norm_num) (by norm_num)
      (by decide)).2 (by norm_num)
  exact ⟨rows, h1, h2, h3⟩

/-! ## C7: the printed form does not re-parse -/

/-- Every `__repr__` output opens with a parenthesis. -/
theorem formatExpr_head_paren (e : Expr) :
    ∃ t, (formatExpr e).data = '(' :: t := by
  cases e <;> simp [formatExpr, String.data_append]

/-- A literal token starting with `$` never matches at an opening
parenthesis. -/
theorem pLit_dollar_at_paren (rest : List Char) (t : List Char) :
    pLit ('$' :: rest) ('(' :: t) = Option.none := rfl

/-- The event-name element fails at an opening parenthesis. -/
theorem pEventNameTok_paren (t : List Char) :
    pEventNameTok ('(' :: t) = Option.none := rfl

/-- The field element fails at an opening parenthesis. -/
theorem pRawField_paren (t : List Char) :
    pRawField ('(' :: t) = Option.none := rfl

/-- No conjunction atom starts with a parenthesis: every alternative of
`_conj_exprs` begins with `$begin.` or `$evt.`. -/
theorem pAtom_paren (t : List Char) : pAtom ('(' :: t) = Option.none := rfl

/-- The whole period element fails on `":("`: the grammar has no
parenthesised form. -/
theorem pPeriod_colon_paren (t : List Char) :
    pPeriod (':' :: '(' :: t) = Option.none := rfl

/-- C7 (corrected): the canonical printer is not a parser inverse.
Re-parsing the printed form of any expression fails with
`MalformedExpression`, because every printed node is parenthesised and the
grammar accepts no parentheses; independently, the printer drops the
explicit dynamic scope of a field reference, so even a parenthesis-free
re-parser could not recover the expression. -/
theorem C7_format_not_reparsable :
    (∀ e : Expr, parsePeriodArg (":" ++ formatExpr e) =
      .error .malformedExpression) ∧
    (∀ (b : Bool) (s₁ s₂ : DynScope) (nm : String),
      formatExpr (.eventField b s₁ nm) = formatExpr (.eventField b s₂ nm)) := by
  constructor
  · intro e
    obtain ⟨t, ht⟩ := formatExpr_head_paren e
    have hdata : (":" ++ formatExpr e).data = ':' :: '(' :: t := by
      rw [String.data_append, ht]
      rfl
    rw [parsePeriodArg, hdata, pPeriod_colon_paren]
  · intro b s₁ s₂ nm
    rfl

/-- C7 counterexample: the parser produces
`Eq(EventField(foo), String "bar")` from `:$evt.foo == "bar"`; its printed
form `(($evt.foo) == ("bar"))` is rejected by the parser, so
`Parse(format(expr))` is not `expr`. -/
theorem C7_concrete_roundtrip_fails :
    parsePeriodArg ":$evt.foo == \"bar\"" =
      .ok ⟨Option.none,
        .eqExpr (.eventField false .auto "foo") (.string "bar"),
        .eqExpr (.eventField false .auto "foo") (.string "bar")⟩ ∧
    formatExpr (.eqExpr (.eventField false .auto "foo") (.string "bar")) =
      "(($evt.foo) == (\"bar\"))" ∧
    parsePeriodArg (":" ++
      formatExpr (.eqExpr (.eventField false .auto "foo") (.string "bar"))) =
      .error .malformedExpression :=
  ⟨by rfl, by rfl, by rfl⟩

/-! ## C9: one colon means end_expr = begin_expr -/

/-- Skipping whitespace leaves a suffix. -/
theorem skipWs_suffix (l : List Char) : skipWs l <:+ l :=
  List.dropWhile_suffix _

/-- A matched literal leaves a suffix. -/
theorem pLit_suffix {lit l r : List Char} (h : pLit lit l = some r) :
    r <:+ l := by
  simp only [pLit] at h
  by_cases hp : lit.isPrefixOf (skipWs l) = true
  · rw [if_pos hp] at h
    injection h with h
    exact h ▸ (List.drop_suffix _ _).trans (skipWs_suffix l)
  · rw [if_neg hp] at h
    cases h

/-- A matched word leaves a suffix. -/
theorem pWord_suffix {initP bodyP : Char → Bool} {l : List Char}
    {s : String} {r : List Char} (h : pWord initP bodyP l = some (s, r)) :
    r <:+ l := by
  unfold pWord at h
  cases hskip : skipWs l with
  | nil => rw [hskip] at h; cases h
  | cons c rest =>
    rw [hskip] at h
    by_cases hi : initP c = true
    · simp only [hi, if_true] at h
      have hr : r = rest.dropWhile bodyP := by
        injection h with h
        exact (congrArg Prod.snd h).symm
      have h1 : rest.dropWhile bodyP <:+ c :: rest :=
        (List.dropWhile_suffix _).trans (List.suffix_cons c rest)
      exact hr ▸ (hskip ▸ h1).trans (skipWs_suffix l)
    · simp [hi] at h

/-- Second components of equal optional pairs agree. -/
theorem some_pair_snd {α β : Type} {a : α} {x : β} {b : α} {y : β}
    (h : (some (a, x) : Option (α × β)) = some (b, y)) : y = x := by
  injection h with h
  exact (congrArg Prod.snd h).symm

/-- The fraction part consumes a prefix. -/
theorem pNumberFrac_suffix (l1 : List Char) : (pNumberFrac l1).2 <:+ l1 := by
  unfold pNumberFrac
  split
  · exact (List.dropWhile_suffix _).trans (List.suffix_cons _ _)
  · exact List.suffix_refl _

/-- The exponent part consumes a prefix. -/
theorem pNumberExp_suffix (l2 : List Char) : (pNumberExp l2).2 <:+ l2 := by
  unfold pNumberExp
  split
  · rename_i e r
    by_cases he : (e = 'e' || e = 'E') = true
    · simp only [he, if_true]
      match r with
      | [] => exact List.suffix_refl _
      | s :: r2 =>
        by_cases hs : (s = '+' || s = '-' || s.isDigit) = true
        · simp only [hs, if_true]
          exact ((List.dropWhile_suffix _).trans
            (List.suffix_cons _ _)).trans (List.suffix_cons _ _)
        · simp only [hs]
          simp
    · simp only [he]
      simp
  · exact List.suffix_refl _

/-- A matched number token leaves a suffix. -/
theorem pNumberTok_suffix {l : List Char} {s : String} {r : List Char}
    (h : pNumberTok l = some (s, r)) : r <:+ l := by
  unfold pNumberTok at h
  cases hskip : skipWs l with
  | nil => rw [hskip] at h; cases h
  | cons c rest =>
    rw [hskip] at h
    by_cases hc : (c = '+' || c = '-' || c.isDigit) = true
    · simp only [hc, if_true] at h
      have hr := some_pair_snd h
      subst hr
      exact (((pNumberExp_suffix _).trans
        ((pNumberFrac_suffix _).trans (List.dropWhile_suffix _))).trans
        (List.suffix_cons c rest)).trans (hskip ▸ skipWs_suffix l)
    · simp [hc] at h

/-- The quoted-string scan leaves a suffix (strong induction on the
length). -/
theorem qstrScan_suffix_aux :
    ∀ (n : Nat) (l : List Char), l.length ≤ n →
      ∀ {s r : List Char}, qstrScan l = some (s, r) → r <:+ l := by
  intro n
  induction n with
  | zero =>
    intro l hl s r h
    have : l = [] := List.eq_nil_of_length_eq_zero (by omega)
    subst this
    cases h
  | succ n ih =>
    intro l hl s r h
    rw [qstrScan.eq_def] at h
    split at h
    · cases h
    · rename_i c rest
      cases hq : qstrScan rest with
      | none => rw [hq] at h; cases h
      | some pr =>
        obtain ⟨s2, r2⟩ := pr
        rw [hq] at h
        have hr := some_pair_snd h
        subst hr
        have hsub : r <:+ rest :=
          ih rest (by simp at hl; omega) hq
        exact (hsub.trans (List.suffix_cons _ _)).trans
          (List.suffix_cons _ _)
    · cases h
    · have hr := some_pair_snd h
      subst hr
      exact List.suffix_cons _ _
    · cases h
    · rename_i c rest hne1 hne2 hne3 hne4
      cases hq : qstrScan rest with
      | none => rw [hq] at h; cases h
      | some pr =>
        obtain ⟨s2, r2⟩ := pr
        rw [hq] at h
        have hr := some_pair_snd h
        subst hr
        have hsub : r <:+ rest :=
          ih rest (by simp at hl; omega) hq
        exact hsub.trans (List.suffix_cons _ _)

/-- The quoted-string scan leaves a suffix. -/
theorem qstrScan_suffix {l s r : List Char} (h : qstrScan l = some (s, r)) :
    r <:+ l :=
  qstrScan_suffix_aux l.length l le_rfl h

/-- A matched quoted string leaves a suffix. -/
theorem pQString_suffix {l : List Char} {s : String} {r : List Char}
    (h : pQString l = some (s, r)) : r <:+ l := by
  unfold pQString at h
  split at h
  · rename_i r0 heq
    cases hq : qstrScan r0 with
    | none => rw [hq] at h; cases h
    | some pr =>
      obtain ⟨s2, r2⟩ := pr
      rw [hq] at h
      have hr := some_pair_snd h
      subst hr
      have h1 : r <:+ '"' :: r0 :=
        (qstrScan_suffix hq).trans (List.suffix_cons _ _)
      exact (heq ▸ h1).trans (skipWs_suffix l)
  · cases h

/-- A matched identifier leaves a suffix. -/
theorem pIdent_suffix {l : List Char} {s : String} {r : List Char}
    (h : pIdent l = some (s, r)) : r <:+ l :=
  pWord_suffix h

/-- A matched period name leaves a suffix. -/
theorem pPeriodName_suffix {l : List Char} {s : String} {r : List Char}
    (h : pPeriodName l = some (s, r)) : r <:+ l :=
  pWord_suffix h

/-- A matched dynamic scope leaves a suffix. -/
theorem pDynScope_suffix {l : List Char} {d : DynScope} {r : List Char}
    (h : pDynScope l = some (d, r)) : r <:+ l := by
  unfold pDynScope at h
  split at h
  · exact (some_pair_snd h) ▸ pLit_suffix (by assumption)
  · split at h
    · exact (some_pair_snd h) ▸ pLit_suffix (by assumption)
    · split at h
      · exact (some_pair_snd h) ▸ pLit_suffix (by assumption)
      · split at h
        · exact (some_pair_snd h) ▸ pLit_suffix (by assumption)
        · split at h
          · exact (some_pair_snd h) ▸ pLit_suffix (by assumption)
          · split at h
            · exact (some_pair_snd h) ▸ pLit_suffix (by assumption)
            · cases h

/-- The field tail leaves a suffix. -/
theorem pRawFieldAfterBegin_suffix {isBegin : Bool} {l1 : List Char}
    {f : RawField} {r : List Char}
    (h : pRawFieldAfterBegin isBegin l1 = some (f, r)) : r <:+ l1 := by
  unfold pRawFieldAfterBegin at h
  split at h
  · cases h
  · rename_i l2 he
    split at h
    · rename_i sc l3 hd
      split at h
      · rename_i idStr l4 hi
        have hr := some_pair_snd h
        subst hr
        exact ((pIdent_suffix hi).trans (pDynScope_suffix hd)).trans
          (pLit_suffix he)
      · cases h
    · rename_i hd
      split at h
      · rename_i idStr l4 hi
        have hr := some_pair_snd h
        subst hr
        exact (pIdent_suffix hi).trans (pLit_suffix he)
      · cases h

/-- A matched field reference leaves a suffix. -/
theorem pRawField_suffix {l : List Char} {f : RawField} {r : List Char}
    (h : pRawField l = some (f, r)) : r <:+ l := by
  unfold pRawField at h
  cases hb : pLit "$begin.".data l with
  | some lb =>
    rw [hb] at h
    exact (pRawFieldAfterBegin_suffix h).trans (pLit_suffix hb)
  | none =>
    rw [hb] at h
    exact pRawFieldAfterBegin_suffix h

/-- The event-name tail leaves a suffix. -/
theorem pEventNameAfterBegin_suffix {isBegin : Bool} {l1 : List Char}
    {b : Bool} {r : List Char}
    (h : pEventNameAfterBegin isBegin l1 = some (b, r)) : r <:+ l1 := by
  unfold pEventNameAfterBegin at h
  split at h
  · cases h
  · rename_i l2 he
    split at h
    · rename_i l3 hn
      have hr := some_pair_snd h
      subst hr
      exact (pLit_suffix hn).trans (pLit_suffix he)
    · cases h

/-- A matched event-name token leaves a suffix. -/
theorem pEventNameTok_suffix {l : List Char} {b : Bool} {r : List Char}
    (h : pEventNameTok l = some (b, r)) : r <:+ l := by
  unfold pEventNameTok at h
  split at h
  · rename_i lb hb
    exact (pEventNameAfterBegin_suffix h).trans (pLit_suffix hb)
  · exact pEventNameAfterBegin_suffix h

/-- A matched relational operator leaves a suffix. -/
theorem pRelop_suffix {l : List Char} {op : String} {r : List Char}
    (h : pRelop l = some (op, r)) : r <:+ l := by
  unfold pRelop at h
  split at h
  · exact (some_pair_snd h) ▸ pLit_suffix (by assumption)
  · split at h
    · exact (some_pair_snd h) ▸ pLit_suffix (by assumption)
    · split at h
      · exact (some_pair_snd h) ▸ pLit_suffix (by assumption)
      · split at h
        · exact (some_pair_snd h) ▸ pLit_suffix (by assumption)
        · split at h
          · exact (some_pair_snd h) ▸ pLit_suffix (by assumption)
          · split at h
            · exact (some_pair_snd h) ▸ pLit_suffix (by assumption)
            · cases h

/-- A matched equality operator leaves a suffix. -/
theorem pEqop_suffix {l : List Char} {op : String} {r : List Char}
    (h : pEqop l = some (op, r)) : r <:+ l := by
  unfold pEqop at h
  split at h
  · exact (some_pair_snd h) ▸ pLit_suffix (by assumption)
  · split at h
    · exact (some_pair_snd h) ▸ pLit_suffix (by assumption)
    · cases h

/-- A matched name-comparison atom leaves a suffix. -/
theorem pNameCompAtom_suffix {l : List Char} {a : RawAtom} {r : List Char}
    (h : pNameCompAtom l = some (a, r)) : r <:+ l := by
  unfold pNameCompAtom at h
  split at h
  · cases h
  · rename_i b l1 h1
    split at h
    · cases h
    · rename_i op l2 h2
      split at h
      · cases h
      · rename_i s3 l3 h3
        have hr := some_pair_snd h
        subst hr
        exact ((pQString_suffix h3).trans (pEqop_suffix h2)).trans
          (pEventNameTok_suffix h1)

/-- A matched number-comparison atom leaves a suffix. -/
theorem pNumberCompAtom_suffix {l : List Char} {a : RawAtom} {r : List Char}
    (h : pNumberCompAtom l = some (a, r)) : r <:+ l := by
  unfold pNumberCompAtom at h
  split at h
  · cases h
  · rename_i f l1 h1
    split at h
    · cases h
    · rename_i op l2 h2
      split at h
      · cases h
      · rename_i n3 l3 h3
        have hr := some_pair_snd h
        subst hr
        exact ((pNumberTok_suffix h3).trans (pRelop_suffix h2)).trans
          (pRawField_suffix h1)

/-- A matched string-comparison atom leaves a suffix. -/
theorem pStringCompAtom_suffix {l : List Char} {a : RawAtom} {r : List Char}
    (h : pStringCompAtom l = some (a, r)) : r <:+ l := by
  unfold pStringCompAtom at h
  split at h
  · cases h
  · rename_i f l1 h1
    split at h
    · cases h
    · rename_i op l2 h2
      split at h
      · cases h
      · rename_i s3 l3 h3
        have hr := some_pair_snd h
        subst hr
        exact ((pQString_suffix h3).trans (pEqop_suffix h2)).trans
          (pRawField_suffix h1)

/-- A matched field-comparison atom leaves a suffix. -/
theorem pFieldCompAtom_suffix {l : List Char} {a : RawAtom} {r : List Char}
    (h : pFieldCompAtom l = some (a, r)) : r <:+ l := by
  unfold pFieldCompAtom at h
  split at h
  · cases h
  · rename_i lh l1 h1
    split at h
    · cases h
    · rename_i op l2 h2
      split at h
      · cases h
      · rename_i rh l3 h3
        have hr := some_pair_snd h
        subst hr
        exact ((pRawField_suffix h3).trans (pRelop_suffix h2)).trans
          (pRawField_suffix h1)

/-- A matched atom leaves a suffix. -/
theorem pAtom_suffix {l : List Char} {a : RawAtom} {r : List Char}
    (h : pAtom l = some (a, r)) : r <:+ l := by
  unfold pAtom at h
  split at h
  · rename_i pr h1
    injection h with h
    exact pNameCompAtom_suffix (h ▸ h1)
  · split at h
    · rename_i pr h2
      injection h with h
      exact pNumberCompAtom_suffix (h ▸ h2)
    · split at h
      · rename_i pr h3
        injection h with h
        exact pStringCompAtom_suffix (h ▸ h3)
      · split at h
        · rename_i pr h4
          injection h with h
          exact pFieldCompAtom_suffix (h ▸ h4)
        · cases h

/-- The conjunction tail leaves a suffix. -/
theorem pConjLoop_suffix :
    ∀ (fuel : Nat) (acc : List RawAtom) (l : List Char)
      {as : List RawAtom} {r : List Char},
      pConjLoop fuel acc l = (as, r) → r <:+ l := by
  intro fuel
  induction fuel with
  | zero =>
    intro acc l as r h
    injection h with _ h
    exact h ▸ List.suffix_refl l
  | succ fuel ih =>
    intro acc l as r h
    rw [pConjLoop] at h
    split at h
    · injection h with _ h
      exact h ▸ List.suffix_refl l
    · rename_i l1 h1
      split at h
      · injection h with _ h
        exact h ▸ List.suffix_refl l
      · rename_i a2 l2 h2
        exact ((ih _ _ h).trans (pAtom_suffix h2)).trans (pLit_suffix h1)

/-- A matched conjunction leaves a suffix. -/
theorem pConj_suffix {l : List Char}
    {cj : RawAtom × List RawAtom} {r : List Char}
    (h : pConj l = some (cj, r)) : r <:+ l := by
  unfold pConj at h
  split at h
  · cases h
  · rename_i a1 l1 h1
    have hr : r = (pConjLoop l1.length [] l1).2 := by
      injection h with h
      have := congrArg Prod.snd h
      simpa using this.symm
    exact (hr ▸ pConjLoop_suffix l1.length [] l1 rfl).trans (pAtom_suffix h1)

/-- A suffix has no more colons than the whole. -/
theorem count_le_of_suffix {r l : List Char} (h : r <:+ l) (c : Char) :
    r.count c ≤ l.count c :=
  h.sublist.count_le c

/-- Consuming the `:` literal consumes one colon of the input. -/
theorem pLit_colon_count {l r : List Char} (h : pLit [':'] l = some r) :
    r.count ':' + 1 ≤ l.count ':' := by
  simp only [pLit] at h
  by_cases hp : [':'].isPrefixOf (skipWs l) = true
  · rw [if_pos hp] at h
    injection h with h
    obtain ⟨t2, ht⟩ := List.isPrefixOf_iff_prefix.mp hp
    have hr : r = t2 := by rw [← h, ← ht]; rfl
    have hcount : (skipWs l).count ':' = t2.count ':' + 1 := by
      rw [← ht]
      simp
    have hle := count_le_of_suffix (skipWs_suffix l) ':'
    subst hr
    omega
  · rw [if_neg hp] at h
    cases h

/-- A present end clause consumed a colon. -/
theorem pPeriodEnd_some_count {l3 : List Char}
    (h : (pPeriodEnd l3).1.isSome = true) : 1 ≤ l3.count ':' := by
  unfold pPeriodEnd at h
  split at h
  · rename_i la hla
    have hla' : pLit [':'] l3 = some la := hla
    have := pLit_colon_count hla'
    omega
  · simp at h

/-- A parsed period whose raw result carries an end clause consumed at
least two colons. -/
theorem pPeriodAfterName_end_two {nm : Option String} {l1 : List Char}
    {raw : RawPeriod} {rest : List Char}
    (h : pPeriodAfterName nm l1 = some (raw, rest))
    (hend : raw.endAtoms.isSome = true) : 2 ≤ l1.count ':' := by
  unfold pPeriodAfterName at h
  split at h
  · cases h
  · rename_i l2 h2
    split at h
    · cases h
    · rename_i batoms l3 h3
      injection h with h
      have hraw : raw = ⟨nm, batoms.1, batoms.2, (pPeriodEnd l3).1⟩ :=
        (congrArg Prod.fst h).symm
      have hE : (pPeriodEnd l3).1.isSome = true := by
        rw [hraw] at hend
        exact hend
      have h1 := pPeriodEnd_some_count hE
      have h4 := count_le_of_suffix (pConj_suffix h3) ':'
      have h2' : pLit [':'] l1 = some l2 := h2
      have h5 := pLit_colon_count h2'
      omega

/-- Same fact lifted over the optional period name. -/
theorem pPeriod_end_two_colons {l : List Char} {raw : RawPeriod}
    {rest : List Char} (h : pPeriod l = some (raw, rest))
    (hend : raw.endAtoms.isSome = true) : 2 ≤ l.count ':' := by
  unfold pPeriod at h
  split at h
  · rename_i n r1 hn
    have h1 := pPeriodAfterName_end_two h hend
    have h2 := count_le_of_suffix (pPeriodName_suffix hn) ':'
    omega
  · exact pPeriodAfterName_end_two h hend

/-- C9 (confirmed): a period argument that parses successfully and
contains at most one `:` character had no end clause, and
`parse_period_arg` then returns a definition whose `end_expr` is its
`begin_expr` (the very same expression object). -/
theorem C9_single_colon_end_eq_begin (s : String) (d : PeriodDefinition)
    (hok : parsePeriodArg s = .ok d) (hcolon : s.data.count ':' ≤ 1) :
    d.end_expr = d.begin_expr := by
  unfold parsePeriodArg at hok
  split at hok
  · cases hok
  · rename_i raw rest hp
    split at hok
    · cases hok
    · split at hok
      · -- no end clause: end_expr is begin_expr
        split at hok
        · cases hok
        · split at hok
          · cases hok
          · split at hok
            · cases hok
            · injection hok with hok
              rw [← hok]
      · -- an end clause needs two colons
        rename_i endFirst endRest hend
        exfalso
        have := pPeriod_end_two_colons hp (by rw [hend]; rfl)
        omega

/-- Witness for C9: the one-colon argument `:$evt.$name == "go"` parses to
a definition whose end expression is its begin expression. -/
theorem C9_single_colon_end_eq_begin_witness :
    (⟨Option.none, Expr.eqExpr (.eventName false) (.string "go"),
      Expr.eqExpr (.eventName false) (.string "go")⟩ :
        PeriodDefinition).end_expr =
    (⟨Option.none, Expr.eqExpr (.eventName false) (.string "go"),
      Expr.eqExpr (.eventName false) (.string "go")⟩ :
        PeriodDefinition).begin_expr :=
  C9_single_colon_end_eq_begin ":$evt.$name == \"go\"" _ (by rfl) (by decide)

end Lttng
